import Mathlib

/-!
Verification of the ZunkDB chunk back-end (src/chunk-db-zdb.c).

The C source is shallowly embedded: the per-request event loop of
send_request becomes a recursive function over a scripted trace of
event-loop outcomes, the process-wide node cache becomes explicit state,
and machine integers become Nat / Int. External collaborators that are
not part of this repository (base64_decode, verify_chunk, the outcome of
a non-blocking connect attempt) are parameters of the embedding.
Strings are embedded as lists of characters, matching the byte-wise C
string handling.
-/

namespace ZunkDB

/-- C strings are modelled as lists of characters. -/
abbrev Str := List Char

/-- errno EIO, from errno.h; send_request returns the negated value. -/
def Eio : Int := 5

/-- errno EINVAL, from errno.h. -/
def Einval : Int := 22

/-- errno ETIMEDOUT, from errno.h. -/
def Etimedout : Int := 110

/-- errno ENOMEM, from errno.h. -/
def Enomem : Int := 12

/-- CHUNK_SIZE comes from zunkfs.h, which is outside src/. The engine uses
it only as a positive success return value (and as the fixed chunk length);
zunkfs chunks are 65536 bytes. Only its positivity and distinctness from
the negated errno values matter below. -/
def CHUNK_SIZE : Int := 65536

/-- CACHE_MAX from chunk-db-zdb.c line 59. -/
def CACHE_MAX : Nat := 100

/-- struct sockaddr_in, reduced to the two fields the program reads:
the IPv4 address word and the TCP port. Byte order is immaterial in the
model because addresses are only ever compared for equality and copied. -/
structure Addr where
  s_addr : Nat
  port : Nat
deriving DecidableEq

/-- same_addr from the source: equality of both address word and port. -/
def same_addr (a b : Addr) : Bool :=
  a.s_addr == b.s_addr && a.port == b.port

/-- struct node. The socket, bufferevent and connect_event are abstracted
to the three facts the program branches on: whether the non-blocking
connect event is pending, whether buffered I/O is enabled, and whether
the socket is open. stamp is the dead-set expiry time in seconds. id is
the node identity (standing in for the C pointer). -/
structure Node where
  id : Nat
  addr : Addr
  connect_pending : Bool
  io_enabled : Bool
  sk_open : Bool
  stamp : Nat
deriving DecidableEq

/-- node_is_addr from the source. -/
def node_is_addr (n : Node) (a : Addr) : Bool :=
  same_addr n.addr a

/-- Remove the first element satisfying p, returning it and the rest.
This models list_del of the first matching list entry. -/
def extractFirst (p : α → Bool) : List α → Option (α × List α)
  | [] => none
  | x :: xs =>
    if p x then some (x, xs)
    else
      match extractFirst p xs with
      | none => none
      | some (a, rest) => some (a, x :: rest)

/-- Look up a node by identity in a list. -/
def findById (nid : Nat) (l : List Node) : Option Node :=
  l.find? (fun n => n.id == nid)

/-- Update the first node with the given identity in place. -/
def updateById (nid : Nat) (f : Node → Node) : List Node → List Node
  | [] => []
  | n :: rest =>
    if n.id == nid then f n :: rest
    else n :: updateById nid f rest

/-- The process-wide node cache: the idle list (node_cache, MRU at head),
the dead set (dead_nodes) and cache_count, as in the source. -/
structure CacheState where
  node_cache : List Node
  dead_nodes : List Node
  cache_count : Nat
deriving DecidableEq

/-- Result of find_node: a cached idle node, the dead_node sentinel,
or a miss. -/
inductive FindResult where
  | hit (n : Node)
  | dead
  | miss
deriving DecidableEq

/-- The dead-set sweep inside find_node: expired entries (now strictly
past their stamp) are freed as the scan goes; the scan stops at the first
non-expired entry matching the wanted address. -/
def scanDead (now : Nat) (sa : Addr) : List Node → Bool × List Node
  | [] => (false, [])
  | n :: rest =>
    if n.stamp < now then scanDead now sa rest
    else if node_is_addr n sa then (true, n :: rest)
    else
      match scanDead now sa rest with
      | (found, rest') => (found, n :: rest')

/-- find_node from the source: scan the idle list for an address match
(unlink and return on hit, decrementing cache_count); otherwise sweep the
dead set and report dead on a non-expired match; otherwise miss. -/
def find_node (now : Nat) (sa : Addr) (cs : CacheState) : FindResult × CacheState :=
  match extractFirst (fun n => node_is_addr n sa) cs.node_cache with
  | some (n, rest) =>
    (.hit n, { cs with node_cache := rest, cache_count := cs.cache_count - 1 })
  | none =>
    match scanDead now sa cs.dead_nodes with
    | (found, dead') =>
      (if found then .dead else .miss, { cs with dead_nodes := dead' })

/-- __cache_node from the source, acting on the cache state. The caller
has already unlinked the node from its request (modelled by the Sys level
wrapper below). If the connect event is still pending the node is closed
and dead-listed with stamp now + 60; otherwise it is pushed at the MRU
head of the idle list, evicting the tail when the bound is exceeded. -/
def cache_node (now : Nat) (n0 : Node) (cs : CacheState) : CacheState :=
  let n := { n0 with io_enabled := false }
  if n.connect_pending then
    { cs with dead_nodes :=
        { n with connect_pending := false, sk_open := false, stamp := now + 60 }
          :: cs.dead_nodes }
  else
    let cache' := n :: cs.node_cache
    let cnt := cs.cache_count + 1
    if CACHE_MAX < cnt then
      { cs with node_cache := cache'.dropLast, cache_count := cnt - 1 }
    else
      { cs with node_cache := cache', cache_count := cnt }

/-- struct request. evbuf (the outbound payload) is opaque to the engine
and is not modelled. chunk is the nullable capture pointer request.chunk
(true when still armed); buffer models the bytes currently in the caller
chunk buffer; digest is the digest rendered as its wire string
(digest_string from utils.c, outside src/, is an injective hex rendering,
so a digest is identified with its rendering). -/
structure Request where
  chunk : Bool
  buffer : List Nat
  digest : Str
  node_list : List Node
  addr_list : List Addr
  addr_index : Nat
  addr_concurrency : Nat
  done : Nat
deriving DecidableEq

/-- The full state a request execution touches: the process-wide cache,
the request itself, the allocator counter for fresh node identities, and
a count of sockets created so far (instrumentation for claims about
socket creation; the engine never reads it). -/
structure Sys where
  cache : CacheState
  req : Request
  nextId : Nat
  socketsCreated : Nat
deriving DecidableEq

/-- __store_node from the source: append the address to the candidate
list unless an equal address (same_addr) is already present. The realloc
is modelled as succeeding. -/
def __store_node (req : Request) (addr : Addr) : Request :=
  if req.addr_list.any (fun u => same_addr addr u) then req
  else { req with addr_list := req.addr_list ++ [addr] }

/-- Decimal digit test, as isdigit on ASCII. -/
def isDigitCh (c : Char) : Bool :=
  '0' ≤ c && c ≤ '9'

/-- White-space test, as isspace on ASCII. -/
def isSpaceCh (c : Char) : Bool :=
  c == ' ' || c == '\t' || c == '\n' || c == '\x0b' || c == '\x0c' || c == '\r'

/-- Accumulate the value of a leading run of decimal digits; stops at the
first non-digit. -/
def atoiDigits : Str → Nat → Nat
  | [], acc => acc
  | c :: cs, acc =>
    if isDigitCh c then atoiDigits cs (acc * 10 + (c.toNat - '0'.toNat))
    else acc

/-- atoi from libc (ISO C): skip white space, optional sign, leading
digits; a string with no leading digits yields 0. -/
def atoi (s : Str) : Int :=
  match s.dropWhile isSpaceCh with
  | '-' :: rest => -(atoiDigits rest 0 : Int)
  | '+' :: rest => (atoiDigits rest 0 : Int)
  | t => (atoiDigits t 0 : Int)

/-- The conversion of the int result of atoi to the 16-bit port field,
as in htons(atoi(...)): reduction mod 2 ^ 16. Byte order is immaterial
because ports are only compared for equality and copied. -/
def htons16 (v : Int) : Nat :=
  (v % 65536).toNat

/-- Split a list at every occurrence of c, as the strsep loop does for
option strings; the empty string yields one empty token. -/
def splitOnChar (c : Char) : Str → List Str
  | [] => [[]]
  | x :: xs =>
    if x == c then [] :: splitOnChar c xs
    else
      match splitOnChar c xs with
      | [] => [[x]]
      | h :: t => (x :: h) :: t

/-- strchr followed by splitting at the found character: returns the part
before the first occurrence of c and the part after it, or none when c
does not occur. -/
def strchrSplit (c : Char) : Str → Option (Str × Str)
  | [] => none
  | x :: xs =>
    if x == c then some ([], xs)
    else
      match strchrSplit c xs with
      | none => none
      | some (a, b) => some (x :: a, b)

/-- Parse one decimal component of a dotted quad: nonempty, all digits,
value at most 255. -/
def octet (s : Str) : Option Nat :=
  if s.isEmpty then none
  else if s.all isDigitCh then
    let v := atoiDigits s 0
    if v ≤ 255 then some v else none
  else none

/-- Modelled from the spec: inet_aton is a libc routine outside this
repository; section 6 of the spec requires hosts to be dotted-quad IPv4
literals, so it is modelled as the strict dotted-quad parser a.b.c.d with
each component a decimal numeral in 0..255, yielding the 32-bit address
word. -/
def inet_aton (s : Str) : Option Nat :=
  match splitOnChar '.' s with
  | [a, b, c, d] =>
    match octet a, octet b, octet c, octet d with
    | some x, some y, some z, some w => some (((x * 256 + y) * 256 + z) * 256 + w)
    | _, _, _, _ => none
  | _ => none

/-- store_node from the source: split the payload at the first ':' ;
without one, or when the host part does not parse, the frame is dropped;
otherwise hand the parsed address to __store_node. -/
def store_node (req : Request) (addr_str : Str) : Request :=
  match strchrSplit ':' addr_str with
  | none => req
  | some (host, portStr) =>
    match inet_aton host with
    | none => req
    | some ip => __store_node req { s_addr := ip, port := htons16 (atoi portStr) }

/-- The verb of outbound read requests. -/
def FIND_CHUNK : Str := ['f', 'i', 'n', 'd', '_', 'c', 'h', 'u', 'n', 'k']

/-- The store_chunk verb. -/
def STORE_CHUNK : Str := ['s', 't', 'o', 'r', 'e', '_', 'c', 'h', 'u', 'n', 'k']

/-- The request_done verb. -/
def REQUEST_DONE : Str := ['r', 'e', 'q', 'u', 'e', 's', 't', '_', 'd', 'o', 'n', 'e']

/-- The store_node verb. -/
def STORE_NODE : Str := ['s', 't', 'o', 'r', 'e', '_', 'n', 'o', 'd', 'e']

/-- cache_node at the Sys level: unlink the node with the given identity
from the request (list_del and clearing node->request) and hand it to
__cache_node. A node that is not attached is left alone. -/
def cacheNodeSys (now : Nat) (nid : Nat) (sys : Sys) : Sys :=
  match extractFirst (fun n => n.id == nid) sys.req.node_list with
  | none => sys
  | some (n, rest) =>
    { sys with
      req := { sys.req with node_list := rest },
      cache := cache_node now n sys.cache }

/-- free_node at the Sys level, for a node attached to the request (the
errorcb path): the in-flight counter of its request is decremented, the
node is unlinked, its bufferevent freed and socket closed. -/
def freeNodeSys (nid : Nat) (sys : Sys) : Sys :=
  match extractFirst (fun n => n.id == nid) sys.req.node_list with
  | none => sys
  | some (_, rest) =>
    { sys with
      req := { sys.req with
        node_list := rest,
        addr_concurrency := sys.req.addr_concurrency - 1 } }

/-- proc_msg from the source. decode stands for base64_decode (base64.c,
outside src/). The three verb prefixes are tested with strncmp in source
order; on store_chunk with the capture pointer armed the body is decoded
into the caller buffer and the pointer nulled; on request_done matching
the digest the done counter is bumped, the in-flight counter decremented
and the node returned to the cache, signalling drain; on store_node the
payload goes to the referral parser. Returns the drain flag and the new
state. -/
def proc_msg (decode : Str → List Nat) (now : Nat) (msg : Str) (nid : Nat)
    (sys : Sys) : Bool × Sys :=
  if STORE_CHUNK.isPrefixOf msg then
    if sys.req.chunk then
      (false, { sys with req := { sys.req with
        buffer := decode (msg.drop (STORE_CHUNK.length + 1)), chunk := false } })
    else (false, sys)
  else if REQUEST_DONE.isPrefixOf msg then
    if msg.drop (REQUEST_DONE.length + 1) == sys.req.digest then
      let sys' := { sys with req := { sys.req with
        done := sys.req.done + 1,
        addr_concurrency := sys.req.addr_concurrency - 1 } }
      (true, cacheNodeSys now nid sys')
    else (false, sys)
  else if STORE_NODE.isPrefixOf msg then
    (false, { sys with req := store_node sys.req (msg.drop (STORE_NODE.length + 1)) })
  else (false, sys)

/-- readcb from the source: the already-split CRLF-terminated lines of
one buffered delivery are fed to proc_msg in order; once proc_msg reports
drain, the remaining lines are drained unprocessed. -/
def readcb (decode : Str → List Nat) (now : Nat) (nid : Nat)
    (lines : List Str) (sys : Sys) : Sys :=
  (lines.foldl
    (fun acc line => if acc.1 then acc else proc_msg decode now line nid acc.2)
    (false, sys)).2

/-- Outcome of a connect attempt on a socket, scripting the operating
system answer: immediate success, EINPROGRESS, or a hard failure. -/
inductive ConnectOutcome where
  | connected
  | inProgress
  | failed
deriving DecidableEq

/-- One outcome of a single event_base_loop pass, scripting the event
deliveries of libevent: a batch of parsed lines arriving on one node
(readcb), an I/O error on one node (errorcb), or the connect event of a
node firing with the given retried-connect outcome (try_connect). -/
inductive LoopEvent where
  | frames (nid : Nat) (lines : List Str)
  | ioError (nid : Nat)
  | connectReady (nid : Nat) (outcome : ConnectOutcome)
deriving DecidableEq

/-- Apply one scripted event to the state. Frames are delivered only to a
node that is attached and has I/O enabled (a disabled bufferevent never
fires readcb); errorcb frees the node; a firing connect event clears the
pending flag and retries connect: on success I/O is enabled, on
EINPROGRESS or EALREADY the event is re-armed (pending again, no net
change), and on a hard failure the event is re-armed and the node is
handed to cache_node, which dead-lists it. -/
def applyEvent (decode : Str → List Nat) (now : Nat) (e : LoopEvent)
    (sys : Sys) : Sys :=
  match e with
  | .frames nid lines =>
    match findById nid sys.req.node_list with
    | some n => if n.io_enabled then readcb decode now nid lines sys else sys
    | none => sys
  | .ioError nid => freeNodeSys nid sys
  | .connectReady nid outcome =>
    match findById nid sys.req.node_list with
    | none => sys
    | some n =>
      if n.connect_pending then
        match outcome with
        | .connected =>
          let nl := updateById nid
            (fun m => { m with connect_pending := false, io_enabled := true })
            sys.req.node_list
          { sys with req := { sys.req with node_list := nl } }
        | .inProgress => sys
        | .failed => cacheNodeSys now nid sys
      else sys

/-- send_request_to from the source. connectNow scripts the outcome of
the initial synchronous connect attempt for each address. A dead-set hit
returns -EINVAL before any socket is created; a cache hit re-attaches
the idle node and enables its I/O; a miss creates a fresh node (socket
creation is modelled as succeeding and counted), attaches it with I/O
disabled, and calls try_connect: immediate success enables I/O,
EINPROGRESS leaves the connect event pending, and a hard failure arms
the event and hands the node to cache_node, dead-listing it. -/
def send_request_to (connectNow : Addr → ConnectOutcome) (now : Nat)
    (addr : Addr) (sys : Sys) : Int × Sys :=
  match find_node now addr sys.cache with
  | (.dead, cs) => (-Einval, { sys with cache := cs })
  | (.hit n, cs) =>
    let nl := { n with io_enabled := true } :: sys.req.node_list
    (0, { sys with cache := cs, req := { sys.req with node_list := nl } })
  | (.miss, cs) =>
    let base : Node :=
      { id := sys.nextId, addr := addr, connect_pending := false,
        io_enabled := false, sk_open := true, stamp := 0 }
    let sys1 :=
      { sys with
        cache := cs, nextId := sys.nextId + 1,
        socketsCreated := sys.socketsCreated + 1 }
    match connectNow addr with
    | .connected =>
      let nl := { base with io_enabled := true } :: sys1.req.node_list
      (0, { sys1 with req := { sys1.req with node_list := nl } })
    | .inProgress =>
      let nl := { base with connect_pending := true } :: sys1.req.node_list
      (0, { sys1 with req := { sys1.req with node_list := nl } })
    | .failed =>
      let cs' := cache_node now { base with connect_pending := true } sys1.cache
      (0, { sys1 with cache := cs' })

/-- The inner dispatch while-loop of send_request: while the cursor has
not reached the end of the candidate list and the in-flight counter is
below max_concurrency, dispatch to the cursor address and advance cursor
and counter regardless of the dispatch outcome. The fuel is the number
of remaining candidates, which send_request_to never changes. -/
def dispatchGo (connectNow : Addr → ConnectOutcome) (now maxConc : Nat) :
    Nat → Sys → Sys
  | 0, sys => sys
  | fuel + 1, sys =>
    if sys.req.addr_index ≠ sys.req.addr_list.length then
      if sys.req.addr_concurrency < maxConc then
        let sys' := (send_request_to connectNow now
          (sys.req.addr_list.getD sys.req.addr_index { s_addr := 0, port := 0 }) sys).2
        dispatchGo connectNow now maxConc fuel
          { sys' with req := { sys'.req with
            addr_index := sys'.req.addr_index + 1,
            addr_concurrency := sys'.req.addr_concurrency + 1 } }
      else sys
    else sys

/-- The dispatch pass with its fuel instantiated. -/
def dispatchLoop (connectNow : Addr → ConnectOutcome) (now maxConc : Nat)
    (sys : Sys) : Sys :=
  dispatchGo connectNow now maxConc
    (sys.req.addr_list.length - sys.req.addr_index) sys

/-- One scripted iteration outcome of the outer for-loop of send_request:
either the overall deadline has fired by the time of the timeout_pending
check, or the deadline is still pending and event_base_loop delivers the
given event. A trace that runs out models event_base_loop reporting that
no events remain, which breaks the loop. -/
inductive Step where
  | timeout
  | event (e : LoopEvent)
deriving DecidableEq

/-- The outer for-loop of send_request. Each iteration runs the dispatch
pass, then checks the deadline (returning -ETIMEDOUT when it fired),
then breaks with the current err when the in-flight list is empty, then
steps the event loop once, then evaluates the done counter: a write
upgrades err to CHUNK_SIZE and keeps looping; a read returns CHUNK_SIZE
only when a body has been captured and verifies against the digest, and
otherwise re-arms the capture pointer and decrements done. verify stands
for verify_chunk (utils.c, outside src/), a pure predicate on the buffer
bytes and the digest. -/
def sendLoop (decode : Str → List Nat) (verify : List Nat → Str → Bool)
    (connectNow : Addr → ConnectOutcome) (now maxConc : Nat) (isWrite : Bool) :
    List Step → Int → Sys → Int × Sys
  | [], err, sys => (err, dispatchLoop connectNow now maxConc sys)
  | .timeout :: _, _, sys => (-Etimedout, dispatchLoop connectNow now maxConc sys)
  | .event e :: rest, err, sys =>
    let sys1 := dispatchLoop connectNow now maxConc sys
    if sys1.req.node_list = [] then (err, sys1)
    else
      let sys2 := applyEvent decode now e sys1
      if sys2.req.done = 0 then
        sendLoop decode verify connectNow now maxConc isWrite rest err sys2
      else if isWrite then
        sendLoop decode verify connectNow now maxConc isWrite rest CHUNK_SIZE sys2
      else if !sys2.req.chunk && verify sys2.req.buffer sys2.req.digest then
        (CHUNK_SIZE, sys2)
      else
        sendLoop decode verify connectNow now maxConc isWrite rest err
          { sys2 with req := { sys2.req with
            chunk := true, done := sys2.req.done - 1 } }

/-- The states of the request at each suspension point, i.e. the state
right after the dispatch pass at each iteration that goes on to block in
event_base_loop. Mirrors sendLoop. -/
def sendLoopSnaps (decode : Str → List Nat) (verify : List Nat → Str → Bool)
    (connectNow : Addr → ConnectOutcome) (now maxConc : Nat) (isWrite : Bool) :
    List Step → Sys → List Sys
  | [], _ => []
  | .timeout :: _, _ => []
  | .event e :: rest, sys =>
    let sys1 := dispatchLoop connectNow now maxConc sys
    if sys1.req.node_list = [] then []
    else
      sys1 ::
        (let sys2 := applyEvent decode now e sys1
         if sys2.req.done = 0 then
           sendLoopSnaps decode verify connectNow now maxConc isWrite rest sys2
         else if isWrite then
           sendLoopSnaps decode verify connectNow now maxConc isWrite rest sys2
         else if !sys2.req.chunk && verify sys2.req.buffer sys2.req.digest then []
         else
           sendLoopSnaps decode verify connectNow now maxConc isWrite rest
             { sys2 with req := { sys2.req with
               chunk := true, done := sys2.req.done - 1 } })

/-- True when the trace never reports the deadline as fired. -/
def noTimeout : List Step → Bool
  | [] => true
  | .timeout :: _ => false
  | .event _ :: rest => noTimeout rest

/-- The teardown loop at the end of send_request: every node still
attached is handed to __cache_node, head first. The fuel is the list
length; each pass removes the head. -/
def cleanupNodes (now : Nat) : Nat → Sys → Sys
  | 0, sys => sys
  | fuel + 1, sys =>
    match sys.req.node_list with
    | [] => sys
    | n :: _ => cleanupNodes now fuel (cacheNodeSys now n.id sys)

/-- The teardown loop with its fuel instantiated. -/
def cleanup (now : Nat) (sys : Sys) : Sys :=
  cleanupNodes now sys.req.node_list.length sys

/-- The request as send_request initialises it: capture pointer armed
exactly on reads, counters zero, empty candidate list. -/
def initRequest (digest : Str) (isWrite : Bool) (buf0 : List Nat) : Request :=
  { chunk := !isWrite, buffer := buf0, digest := digest, node_list := [],
    addr_list := [], addr_index := 0, addr_concurrency := 0, done := 0 }

/-- The request state right after send_request seeded the candidate list
with the start node (spelled out). -/
def seedReq (digest : Str) (isWrite : Bool) (buf0 : List Nat) (startNode : Addr) :
    Request :=
  { chunk := !isWrite, buffer := buf0, digest := digest, node_list := [],
    addr_list := [startNode], addr_index := 0, addr_concurrency := 0, done := 0 }

/-- The system state of a request on a single dead-listed candidate after
its one (failed) dispatch: the slot is burned, the dead set swept, and no
node was created. -/
def deadDispatchedSys (now : Nat) (digest : Str) (isWrite : Bool) (buf0 : List Nat)
    (startNode : Addr) (cache0 : CacheState) (id0 : Nat) : Sys :=
  { cache := { cache0 with dead_nodes := (scanDead now startNode cache0.dead_nodes).2 },
    req := { seedReq digest isWrite buf0 startNode with
      addr_index := 1, addr_concurrency := 1 },
    nextId := id0, socketsCreated := 0 }

/-- send_request from the source: initialise the request, seed the
candidate list with the configured start node, run the outer loop with
err initialised to -EIO over the scripted trace, then tear down by
caching every node still attached. cache0 is the process-wide cache at
call entry, id0 the next fresh node identity. The event_base_new and
evbuffer allocations are modelled as succeeding. -/
def send_request (decode : Str → List Nat) (verify : List Nat → Str → Bool)
    (connectNow : Addr → ConnectOutcome) (now maxConc id0 : Nat)
    (startNode : Addr) (digest : Str) (isWrite : Bool) (buf0 : List Nat)
    (cache0 : CacheState) (trace : List Step) : Int × Sys :=
  let sys0 : Sys :=
    { cache := cache0,
      req := __store_node (initRequest digest isWrite buf0) startNode,
      nextId := id0, socketsCreated := 0 }
  match sendLoop decode verify connectNow now maxConc isWrite trace (-Eio) sys0 with
  | (err, sys1) => (err, cleanup now sys1)

/-- zdb_read_chunk: format a find_chunk line (the payload is opaque to
the engine and not modelled) and run send_request with the caller chunk
buffer, i.e. as a read. -/
def zdb_read_chunk (decode : Str → List Nat) (verify : List Nat → Str → Bool)
    (connectNow : Addr → ConnectOutcome) (now maxConc id0 : Nat)
    (startNode : Addr) (digest : Str) (buf0 : List Nat)
    (cache0 : CacheState) (trace : List Step) : Int × Sys :=
  send_request decode verify connectNow now maxConc id0 startNode digest false
    buf0 cache0 trace

/-- zdb_write_chunk: format a store_chunk line (opaque payload) and run
send_request with a null chunk pointer, i.e. as a write. -/
def zdb_write_chunk (decode : Str → List Nat) (verify : List Nat → Str → Bool)
    (connectNow : Addr → ConnectOutcome) (now maxConc id0 : Nat)
    (startNode : Addr) (digest : Str) (buf0 : List Nat)
    (cache0 : CacheState) (trace : List Step) : Int × Sys :=
  send_request decode verify connectNow now maxConc id0 startNode digest true
    buf0 cache0 trace

/-- struct zdb_info: the start node address, the overall timeout in
seconds (a signed time_t; only the seconds field is ever set) and the
maximum fan-out (a 32-bit unsigned). -/
structure ZdbInfo where
  start_node : Addr
  timeout : Int
  max_concurrency : Nat
deriving DecidableEq

/-- The option key of a timeout option, compared by strncmp of length 8. -/
def TIMEOUT_OPT : Str := ['t', 'i', 'm', 'e', 'o', 'u', 't', '=']

/-- The option key of a concurrency option, compared by strncmp of
length 12. -/
def CONCURRENCY_OPT : Str :=
  ['c', 'o', 'n', 'c', 'u', 'r', 'r', 'e', 'n', 'c', 'y', '=']

/-- The option iterations of parse_spec after the first token: timeout=
sets the seconds (zero is rejected), concurrency= sets the fan-out bound
after int-to-unsigned conversion (zero is rejected), anything else is
rejected. -/
def parse_spec_opts (z : ZdbInfo) : List Str → Except Int ZdbInfo
  | [] => .ok z
  | opt :: rest =>
    if TIMEOUT_OPT.isPrefixOf opt then
      let t := atoi (opt.drop 8)
      if t = 0 then .error (-Einval)
      else parse_spec_opts { z with timeout := t } rest
    else if CONCURRENCY_OPT.isPrefixOf opt then
      let c := ((atoi (opt.drop 12)) % 4294967296).toNat
      if c = 0 then .error (-Einval)
      else parse_spec_opts { z with max_concurrency := c } rest
    else .error (-Einval)

/-- parse_spec from the source: split the spec at commas; the first token
must be host:port with the first ':' as separator (a missing ':' or a
host inet_aton rejects yield -EINVAL; the port goes through
htons(atoi(...)) and is otherwise unchecked); the remaining tokens are
options. The strsep loop always yields at least one token, so the final
no-address check of the source is unreachable and not modelled. The
off-by-one alloca size when copying the spec is a memory-level slip with
no functional counterpart here. -/
def parse_spec (z0 : ZdbInfo) (spec : Str) : Except Int ZdbInfo :=
  match splitOnChar ',' spec with
  | [] => .error (-Einval)
  | first :: rest =>
    match strchrSplit ':' first with
    | none => .error (-Einval)
    | some (host, portStr) =>
      match inet_aton host with
      | none => .error (-Einval)
      | some ip =>
        parse_spec_opts
          { z0 with start_node := { s_addr := ip, port := htons16 (atoi portStr) } }
          rest

/-- The scheme tag of a zunkdb spec. -/
def ZDB_SCHEME : Str := ['z', 'u', 'n', 'k', 'd', 'b', ':']

/-- zdb_chunkdb_ctor without the registry plumbing: a spec not starting
with the scheme tag makes the constructor decline (NULL, modelled as
error 0); otherwise the defaults (timeout 60 s, unbounded fan-out, i.e.
the unsigned value of -1) are installed and parse_spec runs on the rest
of the spec. -/
def zdb_chunkdb_ctor (spec : Str) : Except Int ZdbInfo :=
  if ZDB_SCHEME.isPrefixOf spec then
    parse_spec
      { start_node := { s_addr := 0, port := 0 },
        timeout := 60, max_concurrency := 4294967295 }
      (spec.drop 7)
  else .error 0

/-- One operation on the process-wide node cache: acquire is find_node
for an address at a moment in time, release is cache_node for a node at
a moment in time. -/
inductive CacheOp where
  | acquire (now : Nat) (sa : Addr)
  | release (now : Nat) (n : Node)
deriving DecidableEq

/-- Apply one cache operation to a cache state. -/
def applyCacheOp (cs : CacheState) : CacheOp → CacheState
  | .acquire now sa => (find_node now sa cs).2
  | .release now n => cache_node now n cs

/-- Run a sequence of cache operations from the initial (empty) process
state of the compilation unit. -/
def runCacheOps (ops : List CacheOp) : CacheState :=
  ops.foldl applyCacheOp { node_cache := [], dead_nodes := [], cache_count := 0 }

/-- A concrete base64 decoder stand-in used by witnesses: every body
decodes to the single byte 1. -/
def wDecode : Str → List Nat := fun _ => [1]

/-- A concrete verify_chunk stand-in used by witnesses: a buffer verifies
exactly when it is the single byte 1. -/
def wVerify : List Nat → Str → Bool := fun b _ => b == [1]

/-- A concrete connect scripting used by witnesses: every connect attempt
succeeds immediately. -/
def wConnect : Addr → ConnectOutcome := fun _ => .connected

/-- A start-node address used by witnesses, standing for 127.0.0.1:7000. -/
def wStart : Addr := { s_addr := 2130706433, port := 7000 }

/-- A second address used by witnesses, standing for 127.0.0.1:7001. -/
def wAddrB : Addr := { s_addr := 2130706433, port := 7001 }

/-- A third address used by witnesses, standing for 127.0.0.1:7002. -/
def wAddrC : Addr := { s_addr := 2130706433, port := 7002 }

/-- A digest string used by witnesses. -/
def wDigest : Str := ['d', '1']

/-- The empty process-wide cache. -/
def emptyCache : CacheState :=
  { node_cache := [], dead_nodes := [], cache_count := 0 }

/-- A request_done line for a digest, as a peer would send it. -/
def rdLine (d : Str) : Str := (REQUEST_DONE ++ [' ']) ++ d

/-- A store_chunk line with the given body. -/
def scLine (b : Str) : Str := (STORE_CHUNK ++ [' ']) ++ b

/-- A store_node line with the given payload. -/
def snLine (p : Str) : Str := (STORE_NODE ++ [' ']) ++ p

/-- No two addresses of the list are equal in the sense of same_addr. -/
def addrNoDup (l : List Addr) : Prop :=
  l.Pairwise (fun a b => same_addr a b = false)

/-- The host literal 127.0.0.1 as a character list. -/
def host127 : Str := ['1', '2', '7', '.', '0', '.', '0', '.', '1']

/-- The address word of 127.0.0.1. -/
def ip127 : Nat := 2130706433

/-- An idle node used by witnesses. -/
def wNodeIdle : Node :=
  { id := 3, addr := wAddrB, connect_pending := false, io_enabled := true,
    sk_open := true, stamp := 0 }

/-- A pending-connect node used by witnesses. -/
def wNodePending : Node :=
  { id := 4, addr := wAddrC, connect_pending := true, io_enabled := true,
    sk_open := true, stamp := 0 }

/-- A full cache (CACHE_MAX idle nodes) used by witnesses. -/
def w100cache : CacheState :=
  { node_cache := List.replicate 100 wNodeIdle, dead_nodes := [],
    cache_count := 100 }

/-- A request used by witnesses. -/
def wReq : Request :=
  { chunk := true, buffer := [], digest := wDigest,
    node_list := [wNodeIdle, wNodePending], addr_list := [wStart],
    addr_index := 1, addr_concurrency := 2, done := 0 }

/-- A system state used by witnesses. -/
def wSys : Sys :=
  { cache := emptyCache, req := wReq, nextId := 50, socketsCreated := 0 }

/-- A dead-set entry for the witness start address, far from expiry. -/
def wDeadStart : Node :=
  { id := 9, addr := wStart, connect_pending := false, io_enabled := false,
    sk_open := false, stamp := 5000 }

/-- A dead-set entry for the witness address B, far from expiry. -/
def wDeadB : Node :=
  { id := 9, addr := wAddrB, connect_pending := false, io_enabled := false,
    sk_open := false, stamp := 5000 }

/-- A cache whose dead set holds the witness start address. -/
def wCacheDeadStart : CacheState :=
  { node_cache := [], dead_nodes := [wDeadStart], cache_count := 0 }

/-- A cache whose dead set holds the witness address B. -/
def wCacheDeadB : CacheState :=
  { node_cache := [], dead_nodes := [wDeadB], cache_count := 0 }

/-- The referral payload 127.0.0.1:7001 as a character list. -/
def snB : Str := host127 ++ [':', '7', '0', '0', '1']

/-- The referral payload 127.0.0.1:7002 as a character list. -/
def snC : Str := host127 ++ [':', '7', '0', '0', '2']

/-- The state of a write request right after send_request seeded the
candidate list, used by witnesses. -/
def wSys0 : Sys :=
  { cache := emptyCache, req := __store_node (initRequest wDigest true []) wStart,
    nextId := 50, socketsCreated := 0 }

/-- The node the witness dispatch pass creates for the start address. -/
def wNode50 : Node :=
  { id := 50, addr := wStart, connect_pending := false, io_enabled := true,
    sk_open := true, stamp := 0 }

/-- The state of a read request right after seeding, with address B
pre-dead-listed, used by witnesses. -/
def wSysC4 : Sys :=
  { cache := wCacheDeadB, req := __store_node (initRequest wDigest false []) wStart,
    nextId := 50, socketsCreated := 0 }

/-! Helper lemmas about the list primitives of the embedding. -/

theorem isPrefixOf_append_self (l r : Str) : l.isPrefixOf (l ++ r) = true := by
  induction l with
  | nil => simp
  | cons a as ih => simp [List.isPrefixOf_cons₂, ih]

theorem extractFirst_none_of (p : α → Bool) :
    ∀ l : List α, (∀ x ∈ l, p x = false) → extractFirst p l = none
  | [], _ => rfl
  | x :: xs, h => by
    have hx : p x = false := h x (List.mem_cons_self x xs)
    have ih := extractFirst_none_of p xs fun y hy => h y (List.mem_cons_of_mem x hy)
    simp [extractFirst, hx, ih]

theorem extractFirst_length (p : α → Bool) :
    ∀ {l rest : List α} {a : α}, extractFirst p l = some (a, rest) →
      l.length = rest.length + 1
  | [], _, _, h => by simp [extractFirst] at h
  | x :: xs, rest, a, h => by
    by_cases hx : p x = true
    · simp [extractFirst, hx] at h
      simp [← h.2]
    · simp [extractFirst, hx] at h
      match hrec : extractFirst p xs with
      | none => rw [hrec] at h; simp at h
      | some (b, r) =>
        rw [hrec] at h
        simp at h
        obtain ⟨hba, hxr⟩ := h
        have hlen := extractFirst_length p hrec
        subst hxr
        simp [hlen]

theorem extractFirst_of_find? (p : α → Bool) :
    ∀ {l : List α} {a : α}, l.find? p = some a →
      ∃ rest, extractFirst p l = some (a, rest) ∧ l.length = rest.length + 1
  | [], a, h => by simp at h
  | x :: xs, a, h => by
    by_cases hx : p x = true
    · rw [List.find?_cons_of_pos _ hx] at h
      refine ⟨xs, ?_, rfl⟩
      simp [extractFirst, hx]
      exact (Option.some_inj.mp h).symm ▸ rfl
    · rw [List.find?_cons_of_neg _ hx] at h
      obtain ⟨rest, hr, hl⟩ := extractFirst_of_find? p h
      exact ⟨x :: rest, by simp [extractFirst, hx, hr], by simp [hl]⟩

theorem mem_of_findById {nid : Nat} {l : List Node} {n : Node}
    (h : findById nid l = some n) : n ∈ l :=
  List.mem_of_find?_eq_some h

theorem drop_len_append (l r : List α) : (l ++ r).drop l.length = r :=
  List.drop_left l r

theorem same_addr_iff (a b : Addr) : same_addr a b = true ↔ a = b := by
  cases a; cases b; simp [same_addr, Addr.mk.injEq]

theorem same_addr_false_symm {a b : Addr} (h : same_addr a b = false) :
    same_addr b a = false := by
  cases hb : same_addr b a
  · rfl
  · have hba : b = a := (same_addr_iff b a).mp hb
    have hab : same_addr a b = true := (same_addr_iff a b).mpr hba.symm
    rw [h] at hab
    exact (Bool.false_ne_true hab).elim

theorem updateById_length (nid : Nat) (f : Node → Node) :
    ∀ l : List Node, (updateById nid f l).length = l.length
  | [] => rfl
  | n :: rest => by
    by_cases h : (n.id == nid) = true
    · simp [updateById, h]
    · simp [updateById, h, updateById_length nid f rest]

/-! Claim C8: the candidate list never acquires duplicates. -/

theorem __store_node_noDup (req : Request) (a : Addr) (h : addrNoDup req.addr_list) :
    addrNoDup (__store_node req a).addr_list := by
  unfold __store_node
  split
  · exact h
  · rename_i hany
    refine List.pairwise_append.mpr ⟨h, List.pairwise_singleton _ _, ?_⟩
    intro u hu b hb
    have hb' : b = a := by simpa using hb
    subst hb'
    have : ¬ (same_addr b u = true) := by
      intro hc
      exact hany (List.any_eq_true.mpr ⟨u, hu, hc⟩)
    exact same_addr_false_symm (Bool.eq_false_iff.mpr (by exact fun hx => this hx))

theorem store_node_noDup (req : Request) (msg : Str) (h : addrNoDup req.addr_list) :
    addrNoDup (store_node req msg).addr_list := by
  unfold store_node
  split
  · exact h
  · split
    · exact h
    · exact __store_node_noDup _ _ h

/-- C8: for every request and every sequence of store_node referral
frames, an address is appended only if no address already in the list is
same_addr-equal to it, and so a candidate list without duplicates never
acquires any. -/
theorem c8_no_duplicate_candidates :
    (∀ (req : Request) (a : Addr),
       req.addr_list.any (fun u => same_addr a u) = true → __store_node req a = req) ∧
    (∀ (req : Request) (msgs : List Str), addrNoDup req.addr_list →
       addrNoDup ((msgs.foldl store_node req).addr_list)) := by
  constructor
  · intro req a h
    simp [__store_node, h]
  · intro req msgs h
    induction msgs generalizing req with
    | nil => exact h
    | cons m ms ih => exact ih _ (store_node_noDup _ _ h)

/-- Witness for C8 at concrete inputs. -/
theorem c8_witness :
    __store_node wReq wStart = wReq ∧
    addrNoDup ((([snB, snB, snC].foldl store_node wReq)).addr_list) :=
  ⟨c8_no_duplicate_candidates.1 wReq wStart (by decide),
   c8_no_duplicate_candidates.2 wReq [snB, snB, snC] (by simp [wReq, addrNoDup])⟩

/-! Claim C10: malformed store_node frames are discarded without effect. -/

theorem store_node_bad_payload (req : Request) (payload : Str)
    (hbad : strchrSplit ':' payload = none ∨
      ∃ h p, strchrSplit ':' payload = some (h, p) ∧ inet_aton h = none) :
    store_node req payload = req := by
  unfold store_node
  rcases hbad with hnone | ⟨h, p, hsome, hia⟩
  · simp [hnone]
  · simp [hsome, hia]

/-- C10: a store_node frame whose payload has no colon separator, or
whose host part does not parse as an IPv4 literal, leaves the whole
request state (candidate list, cursor, counters, everything) unchanged
and does not signal drain. -/
theorem c10_bad_store_node_frame_ignored (decode : Str → List Nat)
    (now nid : Nat) (sys : Sys) (payload : Str)
    (hbad : strchrSplit ':' payload = none ∨
      ∃ h p, strchrSplit ':' payload = some (h, p) ∧ inet_aton h = none) :
    proc_msg decode now (snLine payload) nid sys = (false, sys) := by
  have h1 : STORE_CHUNK.isPrefixOf (snLine payload) = false := rfl
  have h2 : REQUEST_DONE.isPrefixOf (snLine payload) = false := rfl
  have h3 : STORE_NODE.isPrefixOf (snLine payload) = true := rfl
  have h4 : (snLine payload).drop (STORE_NODE.length + 1) = payload := rfl
  have h5 := store_node_bad_payload sys.req payload hbad
  simp [proc_msg, h1, h2, h3, h4, h5]

/-- Witness for C10: a colon-free payload is discarded. -/
theorem c10_witness : proc_msg wDecode 0 (snLine ['x']) 7 wSys = (false, wSys) :=
  c10_bad_store_node_frame_ignored wDecode 0 7 wSys ['x'] (Or.inl rfl)

/-! Claim C9: the constructor accepts empty or non-numeric port fields. -/

theorem splitOnChar_no_sep (sep : Char) :
    ∀ l : Str, l.all (fun c => !(c == sep)) = true → splitOnChar sep l = [l]
  | [], _ => rfl
  | x :: xs, h => by
    rw [List.all_cons, Bool.and_eq_true] at h
    have hx : (x == sep) = false := by simpa using h.1
    have ih := splitOnChar_no_sep sep xs h.2
    simp [splitOnChar, hx, ih]

theorem strchrSplit_first (sep : Char) :
    ∀ (l r : Str), l.all (fun c => !(c == sep)) = true →
      strchrSplit sep (l ++ sep :: r) = some (l, r)
  | [], r, _ => by simp [strchrSplit]
  | x :: l, r, h => by
    rw [List.all_cons, Bool.and_eq_true] at h
    have hx : (x == sep) = false := by simpa using h.1
    have ih := strchrSplit_first sep l r h.2
    simp [strchrSplit, hx, ih]

/-- C9: a spec whose port field after the colon is empty or non-numeric
(atoi yields zero) is accepted with start-node port 0; only a missing
colon separator is rejected. -/
theorem c9_ctor_accepts_degenerate_port :
    (∀ p : Str, p.all (fun c => !(c == ',')) = true → atoi p = 0 →
       zdb_chunkdb_ctor (ZDB_SCHEME ++ host127 ++ ':' :: p)
         = .ok { start_node := { s_addr := ip127, port := 0 }, timeout := 60,
                 max_concurrency := 4294967295 }) ∧
    zdb_chunkdb_ctor (ZDB_SCHEME ++ host127) = .error (-Einval) := by
  constructor
  · intro p hp hatoi
    have hpre : ZDB_SCHEME.isPrefixOf (ZDB_SCHEME ++ (host127 ++ ':' :: p)) = true :=
      isPrefixOf_append_self _ _
    have hdrop : (ZDB_SCHEME ++ (host127 ++ ':' :: p)).drop 7 = host127 ++ ':' :: p :=
      drop_len_append ZDB_SCHEME _
    have hsplit : splitOnChar ',' (host127 ++ ':' :: p) = [host127 ++ ':' :: p] := by
      refine splitOnChar_no_sep ',' _ ?_
      simp [List.all_append, List.all_eq_true]
      refine ⟨by decide, ?_⟩
      intro y hy
      have := List.all_eq_true.mp hp y hy
      simpa using this
    have hcolon : strchrSplit ':' (host127 ++ ':' :: p) = some (host127, p) :=
      strchrSplit_first ':' host127 p (by decide)
    have hia : inet_aton host127 = some ip127 := by decide
    simp [zdb_chunkdb_ctor, hpre, hdrop, parse_spec, hsplit, hcolon, hia,
      hatoi, htons16, parse_spec_opts]
  · rfl

/-- Witness for C9: specs zunkdb:127.0.0.1: and zunkdb:127.0.0.1:abc are
accepted with port 0, and zunkdb:127.0.0.1 is rejected. -/
theorem c9_witness :
    zdb_chunkdb_ctor (ZDB_SCHEME ++ host127 ++ ':' :: ([] : Str))
      = .ok { start_node := { s_addr := ip127, port := 0 }, timeout := 60,
              max_concurrency := 4294967295 } ∧
    zdb_chunkdb_ctor (ZDB_SCHEME ++ host127 ++ ':' :: ['a', 'b', 'c'])
      = .ok { start_node := { s_addr := ip127, port := 0 }, timeout := 60,
              max_concurrency := 4294967295 } ∧
    zdb_chunkdb_ctor (ZDB_SCHEME ++ host127) = .error (-Einval) :=
  ⟨c9_ctor_accepts_degenerate_port.1 [] (by decide) (by decide),
   c9_ctor_accepts_degenerate_port.1 ['a', 'b', 'c'] (by decide) (by decide),
   c9_ctor_accepts_degenerate_port.2⟩

/-! Claim C5: the idle cache count matches its length and stays bounded. -/

theorem applyCacheOp_inv (cs : CacheState) (op : CacheOp)
    (h1 : cs.cache_count = cs.node_cache.length)
    (h2 : cs.node_cache.length ≤ CACHE_MAX) :
    (applyCacheOp cs op).cache_count = (applyCacheOp cs op).node_cache.length ∧
    (applyCacheOp cs op).node_cache.length ≤ CACHE_MAX := by
  cases op with
  | acquire now sa =>
    simp only [applyCacheOp]
    unfold find_node
    cases hx : extractFirst (fun n => node_is_addr n sa) cs.node_cache with
    | none =>
      cases hsd : scanDead now sa cs.dead_nodes with
      | mk found dead' => simp [hsd, h1, h2]
    | some nr =>
      obtain ⟨n, rest⟩ := nr
      have hlen := extractFirst_length _ hx
      simp only [CACHE_MAX] at h2 ⊢
      simp [h1, hlen]
      omega
  | release now n =>
    simp only [applyCacheOp]
    unfold cache_node
    dsimp only
    by_cases hpend : n.connect_pending = true
    · simp [hpend, h1, h2]
    · rw [if_neg hpend]
      by_cases hcnt : CACHE_MAX < cs.cache_count + 1
      · rw [if_pos hcnt]
        simp only [CACHE_MAX] at hcnt h2 ⊢
        simp [List.length_dropLast, h1]
        omega
      · rw [if_neg hcnt]
        simp only [CACHE_MAX] at hcnt h2 ⊢
        simp [h1]
        omega

theorem foldl_cacheOps_inv :
    ∀ (ops : List CacheOp) (cs : CacheState),
      cs.cache_count = cs.node_cache.length → cs.node_cache.length ≤ CACHE_MAX →
      (ops.foldl applyCacheOp cs).cache_count
          = (ops.foldl applyCacheOp cs).node_cache.length ∧
        (ops.foldl applyCacheOp cs).node_cache.length ≤ CACHE_MAX
  | [], cs, h1, h2 => ⟨h1, h2⟩
  | op :: ops, cs, h1, h2 => by
    have hstep := applyCacheOp_inv cs op h1 h2
    simpa using foldl_cacheOps_inv ops (applyCacheOp cs op) hstep.1 hstep.2

/-- C5: after any sequence of acquire and release operations from the
initial empty cache, cache_count equals the idle-list length and the
idle list holds at most CACHE_MAX nodes; and a release that would push
the count past the bound drops exactly the tail (least recently
inserted) entry of the idle list. -/
theorem c5_cache_bound_invariant :
    (∀ ops : List CacheOp,
       (runCacheOps ops).cache_count = (runCacheOps ops).node_cache.length ∧
       (runCacheOps ops).node_cache.length ≤ CACHE_MAX) ∧
    (∀ (now : Nat) (n : Node) (cs : CacheState), n.connect_pending = false →
       CACHE_MAX ≤ cs.cache_count →
       (cache_node now n cs).node_cache
         = ({ n with io_enabled := false } :: cs.node_cache).dropLast) := by
  constructor
  · intro ops
    exact foldl_cacheOps_inv ops _ rfl (by simp [CACHE_MAX])
  · intro now n cs hpend hfull
    unfold cache_node
    rw [hpend]
    simp only [Bool.false_eq_true, if_false]
    split
    · rfl
    · rename_i hlt
      simp only [CACHE_MAX] at hlt hfull
      omega

/-- Witness for C5 at concrete inputs: a short operation sequence, and an
eviction from a full cache. -/
theorem c5_witness :
    ((runCacheOps [CacheOp.release 5 wNodeIdle, CacheOp.acquire 6 wAddrB]).cache_count
        = (runCacheOps [CacheOp.release 5 wNodeIdle, CacheOp.acquire 6 wAddrB]).node_cache.length ∧
      (runCacheOps [CacheOp.release 5 wNodeIdle, CacheOp.acquire 6 wAddrB]).node_cache.length
        ≤ CACHE_MAX) ∧
    (cache_node 0 wNodeIdle w100cache).node_cache
      = ({ wNodeIdle with io_enabled := false } :: w100cache.node_cache).dropLast :=
  ⟨c5_cache_bound_invariant.1 [CacheOp.release 5 wNodeIdle, CacheOp.acquire 6 wAddrB],
   c5_cache_bound_invariant.2 0 wNodeIdle w100cache (by decide) (by decide)⟩

/-! Claim C6: release behaviour of a node at the end of a request. -/

/-- C6: releasing an attached node detaches it from the request; when its
non-blocking connect has not completed it is closed and dead-listed with
stamp now plus 60 seconds (idle list untouched); otherwise its I/O is
disabled and it becomes the MRU head of the idle list (dead set
untouched). -/
theorem c6_release_behavior (now nid : Nat) (sys : Sys) (n : Node)
    (rest : List Node)
    (hfind : extractFirst (fun m => m.id == nid) sys.req.node_list = some (n, rest))
    (hcount : sys.cache.cache_count = sys.cache.node_cache.length) :
    (cacheNodeSys now nid sys).req.node_list = rest ∧
    (n.connect_pending = true →
       (cacheNodeSys now nid sys).cache.dead_nodes
           = { n with
               io_enabled := false, connect_pending := false,
               sk_open := false, stamp := now + 60 } :: sys.cache.dead_nodes ∧
         (cacheNodeSys now nid sys).cache.node_cache = sys.cache.node_cache) ∧
    (n.connect_pending = false →
       (cacheNodeSys now nid sys).cache.node_cache.head?
           = some { n with io_enabled := false } ∧
         (cacheNodeSys now nid sys).cache.dead_nodes = sys.cache.dead_nodes) := by
  unfold cacheNodeSys
  rw [hfind]
  refine ⟨rfl, ?_, ?_⟩
  · intro hpend
    unfold cache_node
    simp [hpend]
  · intro hpend
    unfold cache_node
    simp only [hpend, Bool.false_eq_true, if_false]
    split
    · rename_i hlt
      constructor
      · cases hnc : sys.cache.node_cache with
        | nil =>
          rw [hnc] at hcount
          simp at hcount
          simp [CACHE_MAX, hcount] at hlt
        | cons y ys => simp [hnc, List.dropLast]
      · rfl
    · exact ⟨rfl, rfl⟩

/-- Witness for C6: releasing a pending node dead-lists it with a
60-second stamp, releasing a connected node makes it the MRU head. -/
theorem c6_witness :
    ((cacheNodeSys 100 4 wSys).req.node_list = [wNodeIdle] ∧
      (cacheNodeSys 100 4 wSys).cache.dead_nodes
          = { wNodePending with
              io_enabled := false, connect_pending := false,
              sk_open := false, stamp := 160 } :: wSys.cache.dead_nodes ∧
      (cacheNodeSys 100 4 wSys).cache.node_cache = wSys.cache.node_cache) ∧
    ((cacheNodeSys 100 3 wSys).req.node_list = [wNodePending] ∧
      (cacheNodeSys 100 3 wSys).cache.node_cache.head?
          = some { wNodeIdle with io_enabled := false } ∧
      (cacheNodeSys 100 3 wSys).cache.dead_nodes = wSys.cache.dead_nodes) := by
  have h4 := c6_release_behavior 100 4 wSys wNodePending [wNodeIdle] (by decide) (by decide)
  have h3 := c6_release_behavior 100 3 wSys wNodeIdle [wNodePending] (by decide) (by decide)
  exact ⟨⟨h4.1, h4.2.1 (by decide)⟩, ⟨h3.1, h3.2.2 (by decide)⟩⟩

/-! Preservation lemmas about the request-engine building blocks. -/

theorem cacheNodeSys_req (now nid : Nat) (sys : Sys) :
    (cacheNodeSys now nid sys).req.buffer = sys.req.buffer ∧
    (cacheNodeSys now nid sys).req.digest = sys.req.digest ∧
    (cacheNodeSys now nid sys).req.chunk = sys.req.chunk ∧
    (cacheNodeSys now nid sys).req.done = sys.req.done ∧
    (cacheNodeSys now nid sys).req.addr_list = sys.req.addr_list ∧
    (cacheNodeSys now nid sys).req.addr_index = sys.req.addr_index ∧
    (cacheNodeSys now nid sys).req.addr_concurrency = sys.req.addr_concurrency ∧
    (cacheNodeSys now nid sys).req.node_list.length ≤ sys.req.node_list.length := by
  unfold cacheNodeSys
  cases hx : extractFirst (fun m => m.id == nid) sys.req.node_list with
  | none => simp
  | some nr =>
    obtain ⟨n, rest⟩ := nr
    have hlen := extractFirst_length _ hx
    simp [hlen]

theorem freeNodeSys_inv (nid : Nat) (sys : Sys) :
    (freeNodeSys nid sys).req.buffer = sys.req.buffer ∧
    (freeNodeSys nid sys).req.digest = sys.req.digest ∧
    (freeNodeSys nid sys).req.chunk = sys.req.chunk ∧
    (freeNodeSys nid sys).req.done = sys.req.done ∧
    (freeNodeSys nid sys).req.addr_list = sys.req.addr_list ∧
    (freeNodeSys nid sys).req.addr_index = sys.req.addr_index ∧
    (freeNodeSys nid sys).req.addr_concurrency ≤ sys.req.addr_concurrency ∧
    (sys.req.node_list.length ≤ sys.req.addr_concurrency →
      (freeNodeSys nid sys).req.node_list.length
        ≤ (freeNodeSys nid sys).req.addr_concurrency) := by
  unfold freeNodeSys
  cases hx : extractFirst (fun m => m.id == nid) sys.req.node_list with
  | none => simp
  | some nr =>
    obtain ⟨n, rest⟩ := nr
    have hlen := extractFirst_length _ hx
    simp [hlen]
    omega

theorem cleanupNodes_req_fields (now : Nat) :
    ∀ (fuel : Nat) (sys : Sys),
      (cleanupNodes now fuel sys).req.buffer = sys.req.buffer ∧
      (cleanupNodes now fuel sys).req.digest = sys.req.digest ∧
      (cleanupNodes now fuel sys).req.chunk = sys.req.chunk ∧
      (cleanupNodes now fuel sys).req.done = sys.req.done ∧
      (cleanupNodes now fuel sys).req.addr_list = sys.req.addr_list ∧
      (cleanupNodes now fuel sys).req.addr_index = sys.req.addr_index ∧
      (cleanupNodes now fuel sys).req.addr_concurrency = sys.req.addr_concurrency
  | 0, sys => ⟨rfl, rfl, rfl, rfl, rfl, rfl, rfl⟩
  | fuel + 1, sys => by
    cases hnl : sys.req.node_list with
    | nil => simp [cleanupNodes, hnl]
    | cons n ns =>
      have hc := cacheNodeSys_req now n.id sys
      have ih := cleanupNodes_req_fields now fuel (cacheNodeSys now n.id sys)
      simp only [cleanupNodes, hnl]
      exact ⟨ih.1.trans hc.1, ih.2.1.trans hc.2.1, ih.2.2.1.trans hc.2.2.1,
        ih.2.2.2.1.trans hc.2.2.2.1, ih.2.2.2.2.1.trans hc.2.2.2.2.1,
        ih.2.2.2.2.2.1.trans hc.2.2.2.2.2.1,
        ih.2.2.2.2.2.2.trans hc.2.2.2.2.2.2.1⟩

theorem store_node_effects (req : Request) (msg : Str) :
    (store_node req msg).node_list = req.node_list ∧
    (store_node req msg).addr_concurrency = req.addr_concurrency ∧
    (store_node req msg).addr_index = req.addr_index ∧
    req.addr_list.length ≤ (store_node req msg).addr_list.length ∧
    (store_node req msg).digest = req.digest ∧
    (store_node req msg).done = req.done ∧
    (store_node req msg).buffer = req.buffer ∧
    (store_node req msg).chunk = req.chunk := by
  unfold store_node __store_node
  split
  · simp
  · split
    · simp
    · split
      · simp
      · simp

theorem send_request_to_effects (connectNow : Addr → ConnectOutcome) (now : Nat)
    (addr : Addr) (sys : Sys) :
    (send_request_to connectNow now addr sys).2.req.addr_list = sys.req.addr_list ∧
    (send_request_to connectNow now addr sys).2.req.addr_index = sys.req.addr_index ∧
    (send_request_to connectNow now addr sys).2.req.addr_concurrency
        = sys.req.addr_concurrency ∧
    (send_request_to connectNow now addr sys).2.req.digest = sys.req.digest ∧
    (send_request_to connectNow now addr sys).2.req.buffer = sys.req.buffer ∧
    (send_request_to connectNow now addr sys).2.req.chunk = sys.req.chunk ∧
    (send_request_to connectNow now addr sys).2.req.done = sys.req.done ∧
    (send_request_to connectNow now addr sys).2.req.node_list.length
        ≤ sys.req.node_list.length + 1 := by
  unfold send_request_to
  split
  · rename_i cs heq
    simp
  · rename_i n cs heq
    simp
  · rename_i cs heq
    cases connectNow addr with
    | connected => simp
    | inProgress => simp
    | failed => simp

theorem dispatchGo_inv (connectNow : Addr → ConnectOutcome) (now maxConc : Nat)
    (fuel : Nat) :
    ∀ sys : Sys,
      sys.req.node_list.length ≤ sys.req.addr_concurrency →
      sys.req.addr_concurrency ≤ maxConc →
      sys.req.addr_index ≤ sys.req.addr_list.length →
      (dispatchGo connectNow now maxConc fuel sys).req.node_list.length
          ≤ (dispatchGo connectNow now maxConc fuel sys).req.addr_concurrency ∧
      (dispatchGo connectNow now maxConc fuel sys).req.addr_concurrency ≤ maxConc ∧
      (dispatchGo connectNow now maxConc fuel sys).req.addr_index
          ≤ (dispatchGo connectNow now maxConc fuel sys).req.addr_list.length ∧
      (dispatchGo connectNow now maxConc fuel sys).req.digest = sys.req.digest ∧
      (dispatchGo connectNow now maxConc fuel sys).req.buffer = sys.req.buffer ∧
      (dispatchGo connectNow now maxConc fuel sys).req.chunk = sys.req.chunk ∧
      (dispatchGo connectNow now maxConc fuel sys).req.done = sys.req.done := by
  induction fuel with
  | zero =>
    intro sys h1 h2 h3
    exact ⟨h1, h2, h3, rfl, rfl, rfl, rfl⟩
  | succ fuel ih =>
    intro sys h1 h2 h3
    by_cases hidx : sys.req.addr_index ≠ sys.req.addr_list.length
    · by_cases hconc : sys.req.addr_concurrency < maxConc
      · have hlt : sys.req.addr_index < sys.req.addr_list.length :=
          lt_of_le_of_ne h3 hidx
        obtain ⟨e1, e2, e3, e4, e5, e6, e7, e8⟩ := send_request_to_effects connectNow now
          (sys.req.addr_list.getD sys.req.addr_index { s_addr := 0, port := 0 }) sys
        have e1len := congrArg List.length e1
        have e2eq : (send_request_to connectNow now
            (sys.req.addr_list.getD sys.req.addr_index { s_addr := 0, port := 0 })
            sys).2.req.addr_index = sys.req.addr_index := e2
        simp only [dispatchGo]
        rw [if_pos hidx, if_pos hconc]
        have hrec := ih
          { (send_request_to connectNow now
              (sys.req.addr_list.getD sys.req.addr_index { s_addr := 0, port := 0 }) sys).2 with
            req := { (send_request_to connectNow now
              (sys.req.addr_list.getD sys.req.addr_index { s_addr := 0, port := 0 }) sys).2.req with
              addr_index := (send_request_to connectNow now
                (sys.req.addr_list.getD sys.req.addr_index { s_addr := 0, port := 0 }) sys).2.req.addr_index + 1,
              addr_concurrency := (send_request_to connectNow now
                (sys.req.addr_list.getD sys.req.addr_index { s_addr := 0, port := 0 }) sys).2.req.addr_concurrency + 1 } }
          (by dsimp only; omega) (by dsimp only; omega) (by dsimp only; omega)
        refine ⟨hrec.1, hrec.2.1, hrec.2.2.1, ?_, ?_, ?_, ?_⟩
        · rw [hrec.2.2.2.1]; dsimp only; exact e4
        · rw [hrec.2.2.2.2.1]; dsimp only; exact e5
        · rw [hrec.2.2.2.2.2.1]; dsimp only; exact e6
        · rw [hrec.2.2.2.2.2.2]; dsimp only; exact e7
      · simp only [dispatchGo]
        rw [if_pos hidx, if_neg hconc]
        exact ⟨h1, h2, h3, rfl, rfl, rfl, rfl⟩
    · simp only [dispatchGo]
      rw [if_neg hidx]
      exact ⟨h1, h2, h3, rfl, rfl, rfl, rfl⟩

theorem dispatchGo_stop (connectNow : Addr → ConnectOutcome) (now maxConc : Nat)
    (fuel : Nat) :
    ∀ sys : Sys,
      sys.req.addr_list.length - sys.req.addr_index ≤ fuel →
      sys.req.addr_index ≤ sys.req.addr_list.length →
      (dispatchGo connectNow now maxConc fuel sys).req.addr_index
          = (dispatchGo connectNow now maxConc fuel sys).req.addr_list.length ∨
        maxConc ≤ (dispatchGo connectNow now maxConc fuel sys).req.addr_concurrency := by
  induction fuel with
  | zero =>
    intro sys hfuel h3
    left
    simp only [dispatchGo]
    omega
  | succ fuel ih =>
    intro sys hfuel h3
    by_cases hidx : sys.req.addr_index ≠ sys.req.addr_list.length
    · by_cases hconc : sys.req.addr_concurrency < maxConc
      · have hlt : sys.req.addr_index < sys.req.addr_list.length :=
          lt_of_le_of_ne h3 hidx
        obtain ⟨e1, e2, e3, e4, e5, e6, e7, e8⟩ := send_request_to_effects connectNow now
          (sys.req.addr_list.getD sys.req.addr_index { s_addr := 0, port := 0 }) sys
        have e1len := congrArg List.length e1
        simp only [dispatchGo]
        rw [if_pos hidx, if_pos hconc]
        exact ih _ (by dsimp only; omega) (by dsimp only; omega)
      · simp only [dispatchGo]
        rw [if_pos hidx, if_neg hconc]
        right
        omega
    · simp only [dispatchGo]
      rw [if_neg hidx]
      left
      omega

theorem dispatchLoop_inv (connectNow : Addr → ConnectOutcome) (now maxConc : Nat)
    (sys : Sys)
    (h1 : sys.req.node_list.length ≤ sys.req.addr_concurrency)
    (h2 : sys.req.addr_concurrency ≤ maxConc)
    (h3 : sys.req.addr_index ≤ sys.req.addr_list.length) :
    (dispatchLoop connectNow now maxConc sys).req.node_list.length
        ≤ (dispatchLoop connectNow now maxConc sys).req.addr_concurrency ∧
    (dispatchLoop connectNow now maxConc sys).req.addr_concurrency ≤ maxConc ∧
    (dispatchLoop connectNow now maxConc sys).req.addr_index
        ≤ (dispatchLoop connectNow now maxConc sys).req.addr_list.length ∧
    (dispatchLoop connectNow now maxConc sys).req.digest = sys.req.digest ∧
    (dispatchLoop connectNow now maxConc sys).req.buffer = sys.req.buffer ∧
    (dispatchLoop connectNow now maxConc sys).req.chunk = sys.req.chunk ∧
    (dispatchLoop connectNow now maxConc sys).req.done = sys.req.done :=
  dispatchGo_inv connectNow now maxConc _ sys h1 h2 h3

theorem dispatchLoop_stop (connectNow : Addr → ConnectOutcome) (now maxConc : Nat)
    (sys : Sys) (h3 : sys.req.addr_index ≤ sys.req.addr_list.length) :
    (dispatchLoop connectNow now maxConc sys).req.addr_index
        = (dispatchLoop connectNow now maxConc sys).req.addr_list.length ∨
      maxConc ≤ (dispatchLoop connectNow now maxConc sys).req.addr_concurrency :=
  dispatchGo_stop connectNow now maxConc _ sys (le_refl _) h3

theorem proc_msg_inv (decode : Str → List Nat) (now : Nat) (msg : Str) (nid : Nat)
    (sys : Sys) :
    ((proc_msg decode now msg nid sys).1 = false →
       (proc_msg decode now msg nid sys).2.req.node_list = sys.req.node_list ∧
       (proc_msg decode now msg nid sys).2.req.addr_concurrency
         = sys.req.addr_concurrency) ∧
    (proc_msg decode now msg nid sys).2.req.addr_index = sys.req.addr_index ∧
    sys.req.addr_list.length
        ≤ (proc_msg decode now msg nid sys).2.req.addr_list.length ∧
    (proc_msg decode now msg nid sys).2.req.digest = sys.req.digest ∧
    (sys.req.node_list.length ≤ sys.req.addr_concurrency →
      (∃ n, findById nid sys.req.node_list = some n) →
      (proc_msg decode now msg nid sys).2.req.node_list.length
          ≤ (proc_msg decode now msg nid sys).2.req.addr_concurrency ∧
        (proc_msg decode now msg nid sys).2.req.addr_concurrency
          ≤ sys.req.addr_concurrency) := by
  by_cases h1 : STORE_CHUNK.isPrefixOf msg = true
  · by_cases h2 : sys.req.chunk = true
    · simp [proc_msg, h1, h2]
      exact fun h _ _ => h
    · simp [proc_msg, h1, h2]
      exact fun h _ _ => h
  · by_cases h3 : REQUEST_DONE.isPrefixOf msg = true
    · by_cases h4 : (msg.drop (REQUEST_DONE.length + 1) == sys.req.digest) = true
      · simp only [proc_msg, h1, h3, h4, Bool.false_eq_true, if_false, if_true]
        refine ⟨fun hc => absurd hc (by simp), ?_, ?_, ?_, ?_⟩
        · exact (cacheNodeSys_req now nid _).2.2.2.2.2.1
        · have := (cacheNodeSys_req now nid
            { sys with req := { sys.req with
                done := sys.req.done + 1,
                addr_concurrency := sys.req.addr_concurrency - 1 } }).2.2.2.2.1
          rw [this]
        · exact (cacheNodeSys_req now nid _).2.1
        · intro hlc hpres
          obtain ⟨n, hfind⟩ := hpres
          obtain ⟨rest, hex, hlen⟩ := extractFirst_of_find? _ hfind
          constructor
          · show (cacheNodeSys now nid _).req.node_list.length ≤ _
            unfold cacheNodeSys
            dsimp only
            rw [hex]
            dsimp only
            omega
          · show (cacheNodeSys now nid _).req.addr_concurrency ≤ _
            unfold cacheNodeSys
            dsimp only
            rw [hex]
            dsimp only
            omega
      · simp [proc_msg, h1, h3, h4]
        exact fun h _ _ => h
    · by_cases h5 : STORE_NODE.isPrefixOf msg = true
      · have hsn := store_node_effects sys.req (msg.drop (STORE_NODE.length + 1))
        simp only [proc_msg, h1, h3, h5, Bool.false_eq_true, if_false, if_true]
        refine ⟨fun _ => ⟨hsn.1, hsn.2.1⟩, hsn.2.2.1, hsn.2.2.2.1, hsn.2.2.2.2.1, ?_⟩
        intro hlc _
        rw [hsn.1, hsn.2.1]
        exact ⟨hlc, le_refl _⟩
      · simp [proc_msg, h1, h3, h5]
        exact fun h _ _ => h

theorem readcb_fold_inv (decode : Str → List Nat) (now nid : Nat) :
    ∀ (lines : List Str) (acc : Bool × Sys),
      (acc.1 = false → ∃ n, findById nid acc.2.req.node_list = some n) →
      acc.2.req.node_list.length ≤ acc.2.req.addr_concurrency →
      ((lines.foldl
         (fun a line => if a.1 then a else proc_msg decode now line nid a.2)
         acc).2.req.node_list.length
          ≤ (lines.foldl
              (fun a line => if a.1 then a else proc_msg decode now line nid a.2)
              acc).2.req.addr_concurrency ∧
        (lines.foldl
          (fun a line => if a.1 then a else proc_msg decode now line nid a.2)
          acc).2.req.addr_concurrency ≤ acc.2.req.addr_concurrency ∧
        (lines.foldl
          (fun a line => if a.1 then a else proc_msg decode now line nid a.2)
          acc).2.req.addr_index = acc.2.req.addr_index ∧
        acc.2.req.addr_list.length
          ≤ (lines.foldl
              (fun a line => if a.1 then a else proc_msg decode now line nid a.2)
              acc).2.req.addr_list.length ∧
        (lines.foldl
          (fun a line => if a.1 then a else proc_msg decode now line nid a.2)
          acc).2.req.digest = acc.2.req.digest)
  | [], acc, _, hlc => ⟨hlc, le_refl _, rfl, le_refl _, rfl⟩
  | line :: rest, acc, hpres, hlc => by
    by_cases hfl : acc.1 = true
    · have hstep : (if acc.1 then acc else proc_msg decode now line nid acc.2) = acc := by
        rw [if_pos hfl]
      simp only [List.foldl_cons, hstep]
      exact readcb_fold_inv decode now nid rest acc hpres hlc
    · have hfl' : acc.1 = false := Bool.eq_false_iff.mpr hfl
      have hstep : (if acc.1 then acc else proc_msg decode now line nid acc.2)
          = proc_msg decode now line nid acc.2 := by
        rw [hfl']
        simp
      simp only [List.foldl_cons, hstep]
      obtain ⟨hfalse, hidx, hlist, hdig, hdrain⟩ := proc_msg_inv decode now line nid acc.2
      by_cases hres : (proc_msg decode now line nid acc.2).1 = false
      · obtain ⟨hnl, hcc⟩ := hfalse hres
        have ih := readcb_fold_inv decode now nid rest (proc_msg decode now line nid acc.2)
          (fun _ => by rw [hnl]; exact hpres hfl') (by rw [hnl, hcc]; exact hlc)
        refine ⟨ih.1, ?_, ?_, ?_, ?_⟩
        · rw [hcc] at ih; exact ih.2.1
        · rw [ih.2.2.1, hidx]
        · exact le_trans hlist ih.2.2.2.1
        · rw [ih.2.2.2.2, hdig]
      · have hdr := hdrain hlc (hpres hfl')
        have ih := readcb_fold_inv decode now nid rest (proc_msg decode now line nid acc.2)
          (fun hcontra => absurd hcontra hres) hdr.1
        refine ⟨ih.1, ?_, ?_, ?_, ?_⟩
        · exact le_trans ih.2.1 hdr.2
        · rw [ih.2.2.1, hidx]
        · exact le_trans hlist ih.2.2.2.1
        · rw [ih.2.2.2.2, hdig]

theorem readcb_inv (decode : Str → List Nat) (now nid : Nat) (lines : List Str)
    (sys : Sys) (hpres : ∃ n, findById nid sys.req.node_list = some n)
    (hlc : sys.req.node_list.length ≤ sys.req.addr_concurrency) :
    (readcb decode now nid lines sys).req.node_list.length
        ≤ (readcb decode now nid lines sys).req.addr_concurrency ∧
    (readcb decode now nid lines sys).req.addr_concurrency
        ≤ sys.req.addr_concurrency ∧
    (readcb decode now nid lines sys).req.addr_index = sys.req.addr_index ∧
    sys.req.addr_list.length ≤ (readcb decode now nid lines sys).req.addr_list.length ∧
    (readcb decode now nid lines sys).req.digest = sys.req.digest :=
  readcb_fold_inv decode now nid lines (false, sys) (fun _ => hpres) hlc

theorem applyEvent_inv (decode : Str → List Nat) (now : Nat) (e : LoopEvent)
    (sys : Sys) (hlc : sys.req.node_list.length ≤ sys.req.addr_concurrency) :
    (applyEvent decode now e sys).req.node_list.length
        ≤ (applyEvent decode now e sys).req.addr_concurrency ∧
    (applyEvent decode now e sys).req.addr_concurrency ≤ sys.req.addr_concurrency ∧
    (applyEvent decode now e sys).req.addr_index = sys.req.addr_index ∧
    sys.req.addr_list.length ≤ (applyEvent decode now e sys).req.addr_list.length ∧
    (applyEvent decode now e sys).req.digest = sys.req.digest := by
  cases e with
  | frames nid lines =>
    simp only [applyEvent]
    cases hf : findById nid sys.req.node_list with
    | none => exact ⟨hlc, le_refl _, rfl, le_refl _, rfl⟩
    | some n =>
      dsimp only
      by_cases hio : n.io_enabled = true
      · rw [if_pos hio]
        exact readcb_inv decode now nid lines sys ⟨n, hf⟩ hlc
      · rw [if_neg hio]
        exact ⟨hlc, le_refl _, rfl, le_refl _, rfl⟩
  | ioError nid =>
    obtain ⟨f1, f2, f3, f4, f5, f6, f7, f8⟩ := freeNodeSys_inv nid sys
    exact ⟨f8 hlc, f7, f6, le_of_eq (congrArg List.length f5.symm), f2⟩
  | connectReady nid outcome =>
    simp only [applyEvent]
    cases hf : findById nid sys.req.node_list with
    | none => exact ⟨hlc, le_refl _, rfl, le_refl _, rfl⟩
    | some n =>
      dsimp only
      by_cases hpend : n.connect_pending = true
      · rw [if_pos hpend]
        cases outcome with
        | connected =>
          constructor
          · dsimp only
            rw [updateById_length]
            exact hlc
          · exact ⟨le_refl _, rfl, le_refl _, rfl⟩
        | inProgress => exact ⟨hlc, le_refl _, rfl, le_refl _, rfl⟩
        | failed =>
          obtain ⟨c1, c2, c3, c4, c5, c6, c7, c8⟩ := cacheNodeSys_req now nid sys
          refine ⟨?_, le_of_eq c7, c6, le_of_eq (congrArg List.length c5.symm), c2⟩
          rw [c7]
          exact le_trans c8 hlc
      · rw [if_neg hpend]
        exact ⟨hlc, le_refl _, rfl, le_refl _, rfl⟩

/-! Claim C4: in-flight accounting at suspension points. -/

/-- C4 (amended): at every suspension point of a request, the in-flight
counter addr_concurrency is an upper bound for the size of the in-flight
node set and never exceeds max_concurrency. The counter need not equal
the set size: a dispatch to a dead or unreachable address burns a slot
without attaching a node (see the counterexample). -/
theorem c4_amended_inflight_bounds (decode : Str → List Nat)
    (verify : List Nat → Str → Bool) (connectNow : Addr → ConnectOutcome)
    (now maxConc : Nat) (isWrite : Bool) :
    ∀ (trace : List Step) (sys : Sys),
      sys.req.node_list.length ≤ sys.req.addr_concurrency →
      sys.req.addr_concurrency ≤ maxConc →
      sys.req.addr_index ≤ sys.req.addr_list.length →
      ∀ s ∈ sendLoopSnaps decode verify connectNow now maxConc isWrite trace sys,
        s.req.node_list.length ≤ s.req.addr_concurrency ∧
          s.req.addr_concurrency ≤ maxConc
  | [], sys, _, _, _ => by simp [sendLoopSnaps]
  | Step.timeout :: rest, sys, _, _, _ => by simp [sendLoopSnaps]
  | Step.event e :: rest, sys, h1, h2, h3 => by
    intro s hs
    obtain ⟨d1, d2, d3, d4, d5, d6, d7⟩ :=
      dispatchLoop_inv connectNow now maxConc sys h1 h2 h3
    obtain ⟨a1, a2, a3, a4, a5⟩ :=
      applyEvent_inv decode now e (dispatchLoop connectNow now maxConc sys) d1
    simp only [sendLoopSnaps] at hs
    by_cases hemp : (dispatchLoop connectNow now maxConc sys).req.node_list = []
    · rw [if_pos hemp] at hs
      simp at hs
    · rw [if_neg hemp] at hs
      have hmem := List.mem_cons.mp hs
      cases hmem with
      | inl heq => exact heq ▸ ⟨d1, d2⟩
      | inr htail =>
        have ha1' : (applyEvent decode now e
            (dispatchLoop connectNow now maxConc sys)).req.addr_concurrency
              ≤ maxConc := le_trans a2 d2
        have ha3' : (applyEvent decode now e
            (dispatchLoop connectNow now maxConc sys)).req.addr_index
              ≤ (applyEvent decode now e
                  (dispatchLoop connectNow now maxConc sys)).req.addr_list.length := by
          rw [a3]
          exact le_trans d3 a4
        by_cases hdone : (applyEvent decode now e
            (dispatchLoop connectNow now maxConc sys)).req.done = 0
        · rw [if_pos hdone] at htail
          exact c4_amended_inflight_bounds decode verify connectNow now maxConc isWrite
            rest _ a1 ha1' ha3' s htail
        · rw [if_neg hdone] at htail
          by_cases hw : isWrite = true
          · rw [if_pos hw] at htail
            exact c4_amended_inflight_bounds decode verify connectNow now maxConc isWrite
              rest _ a1 ha1' ha3' s htail
          · rw [if_neg hw] at htail
            by_cases hv : (!(applyEvent decode now e
                  (dispatchLoop connectNow now maxConc sys)).req.chunk
                && verify (applyEvent decode now e
                    (dispatchLoop connectNow now maxConc sys)).req.buffer
                  (applyEvent decode now e
                    (dispatchLoop connectNow now maxConc sys)).req.digest) = true
            · rw [if_pos hv] at htail
              simp at htail
            · rw [if_neg hv] at htail
              exact c4_amended_inflight_bounds decode verify connectNow now maxConc isWrite
                rest _ (by exact a1) (by exact ha1') (by exact ha3') s htail

/-- Counterexample for C4 as stated: with the referred address B dead
listed, the second suspension point has in-flight counter 2 but only one
node in the in-flight set (the dead dispatch burned a slot). -/
theorem c4_counterexample_counter_exceeds_set :
    ∃ s ∈ sendLoopSnaps wDecode wVerify wConnect 1000 2 false
        [Step.event (LoopEvent.frames 50 [snLine snB]),
         Step.event (LoopEvent.frames 50 [])] wSysC4,
      s.req.addr_concurrency ≠ s.req.node_list.length := by decide

/-- Witness for the amended C4 at a concrete suspension point. -/
theorem c4_witness :
    (dispatchLoop wConnect 1000 2 wSysC4).req.node_list.length
        ≤ (dispatchLoop wConnect 1000 2 wSysC4).req.addr_concurrency ∧
      (dispatchLoop wConnect 1000 2 wSysC4).req.addr_concurrency ≤ 2 :=
  c4_amended_inflight_bounds wDecode wVerify wConnect 1000 2 false
    [Step.event (LoopEvent.frames 50 [snLine snB]),
     Step.event (LoopEvent.frames 50 [])] wSysC4
    (by decide) (by decide) (by decide) _ (by decide)

/-! Claim C1: a read returns CHUNK_SIZE only with a verified buffer. -/

theorem sendLoop_read_ok (decode : Str → List Nat) (verify : List Nat → Str → Bool)
    (connectNow : Addr → ConnectOutcome) (now maxConc : Nat) :
    ∀ (trace : List Step) (err : Int) (sys : Sys),
      err ≠ CHUNK_SIZE →
      (sendLoop decode verify connectNow now maxConc false trace err sys).1 = CHUNK_SIZE →
      verify (sendLoop decode verify connectNow now maxConc false trace err sys).2.req.buffer
          (sendLoop decode verify connectNow now maxConc false trace err sys).2.req.digest
          = true ∧
        (sendLoop decode verify connectNow now maxConc false trace err sys).2.req.chunk
          = false
  | [], err, sys, hne, h => absurd h hne
  | Step.timeout :: rest, err, sys, hne, h => by
    simp only [sendLoop] at h
    exact absurd h (by decide)
  | Step.event e :: rest, err, sys, hne, h => by
    simp only [sendLoop] at h ⊢
    by_cases hemp : (dispatchLoop connectNow now maxConc sys).req.node_list = []
    · rw [if_pos hemp] at h ⊢
      exact absurd h hne
    · rw [if_neg hemp] at h ⊢
      by_cases hdone : (applyEvent decode now e
          (dispatchLoop connectNow now maxConc sys)).req.done = 0
      · rw [if_pos hdone] at h ⊢
        exact sendLoop_read_ok decode verify connectNow now maxConc rest err _ hne h
      · rw [if_neg hdone] at h ⊢
        simp only [Bool.false_eq_true, if_false] at h ⊢
        by_cases hv : (!(applyEvent decode now e
              (dispatchLoop connectNow now maxConc sys)).req.chunk
            && verify (applyEvent decode now e
                (dispatchLoop connectNow now maxConc sys)).req.buffer
              (applyEvent decode now e
                (dispatchLoop connectNow now maxConc sys)).req.digest) = true
        · rw [if_pos hv] at h ⊢
          rw [Bool.and_eq_true] at hv
          obtain ⟨hchunk, hverify⟩ := hv
          exact ⟨hverify, by simpa using hchunk⟩
        · rw [if_neg hv] at h ⊢
          exact sendLoop_read_ok decode verify connectNow now maxConc rest err _ hne h

/-- C1: whenever a read call (send_request with a non-null chunk buffer)
returns CHUNK_SIZE, the bytes left in the caller buffer verify against
the request digest, and the capture pointer is null, i.e. success was
declared only after a captured candidate body passed verification. -/
theorem c1_read_success_verifies (decode : Str → List Nat)
    (verify : List Nat → Str → Bool) (connectNow : Addr → ConnectOutcome)
    (now maxConc id0 : Nat) (startNode : Addr) (digest : Str) (buf0 : List Nat)
    (cache0 : CacheState) (trace : List Step)
    (hs : (zdb_read_chunk decode verify connectNow now maxConc id0 startNode digest
        buf0 cache0 trace).1 = CHUNK_SIZE) :
    verify (zdb_read_chunk decode verify connectNow now maxConc id0 startNode digest
          buf0 cache0 trace).2.req.buffer
        (zdb_read_chunk decode verify connectNow now maxConc id0 startNode digest
          buf0 cache0 trace).2.req.digest = true ∧
      (zdb_read_chunk decode verify connectNow now maxConc id0 startNode digest
          buf0 cache0 trace).2.req.chunk = false := by
  have hsplit : zdb_read_chunk decode verify connectNow now maxConc id0 startNode digest
      buf0 cache0 trace
      = ((sendLoop decode verify connectNow now maxConc false trace (-Eio)
          { cache := cache0,
            req := __store_node (initRequest digest false buf0) startNode,
            nextId := id0, socketsCreated := 0 }).1,
        cleanup now (sendLoop decode verify connectNow now maxConc false trace (-Eio)
          { cache := cache0,
            req := __store_node (initRequest digest false buf0) startNode,
            nextId := id0, socketsCreated := 0 }).2) := rfl
  rw [hsplit] at hs ⊢
  simp only at hs ⊢
  have hmain := sendLoop_read_ok decode verify connectNow now maxConc trace (-Eio)
    { cache := cache0,
      req := __store_node (initRequest digest false buf0) startNode,
      nextId := id0, socketsCreated := 0 } (by decide) hs
  obtain ⟨cl1, cl2, cl3, cl4, cl5, cl6, cl7⟩ := cleanupNodes_req_fields now
    (sendLoop decode verify connectNow now maxConc false trace (-Eio)
      { cache := cache0,
        req := __store_node (initRequest digest false buf0) startNode,
        nextId := id0, socketsCreated := 0 }).2.req.node_list.length
    (sendLoop decode verify connectNow now maxConc false trace (-Eio)
      { cache := cache0,
        req := __store_node (initRequest digest false buf0) startNode,
        nextId := id0, socketsCreated := 0 }).2
  show verify (cleanup now _).req.buffer (cleanup now _).req.digest = true ∧
    (cleanup now _).req.chunk = false
  unfold cleanup
  rw [cl1, cl2, cl3]
  exact hmain

/-- Witness for C1: a scripted peer sends a body and a matching
request_done; the read returns CHUNK_SIZE and the buffer verifies. -/
theorem c1_witness :
    (zdb_read_chunk wDecode wVerify wConnect 1000 4 50 wStart wDigest [9] emptyCache
        [Step.event (LoopEvent.frames 50 [scLine ['x'], rdLine wDigest])]).1
        = CHUNK_SIZE ∧
      (wVerify (zdb_read_chunk wDecode wVerify wConnect 1000 4 50 wStart wDigest [9]
            emptyCache
            [Step.event (LoopEvent.frames 50 [scLine ['x'], rdLine wDigest])]).2.req.buffer
          (zdb_read_chunk wDecode wVerify wConnect 1000 4 50 wStart wDigest [9]
            emptyCache
            [Step.event (LoopEvent.frames 50 [scLine ['x'], rdLine wDigest])]).2.req.digest
          = true ∧
        (zdb_read_chunk wDecode wVerify wConnect 1000 4 50 wStart wDigest [9] emptyCache
            [Step.event (LoopEvent.frames 50 [scLine ['x'], rdLine wDigest])]).2.req.chunk
          = false) :=
  ⟨by decide,
   c1_read_success_verifies wDecode wVerify wConnect 1000 4 50 wStart wDigest [9]
     emptyCache [Step.event (LoopEvent.frames 50 [scLine ['x'], rdLine wDigest])]
     (by decide)⟩

/-! Claim C2: write success on the first matching request_done. -/

theorem sendLoop_write_keeps_success (decode : Str → List Nat)
    (verify : List Nat → Str → Bool) (connectNow : Addr → ConnectOutcome)
    (now maxConc : Nat) :
    ∀ (trace : List Step) (sys : Sys), noTimeout trace = true →
      (sendLoop decode verify connectNow now maxConc true trace CHUNK_SIZE sys).1
        = CHUNK_SIZE
  | [], sys, _ => rfl
  | Step.timeout :: rest, sys, hnt => by simp [noTimeout] at hnt
  | Step.event e :: rest, sys, hnt => by
    simp only [sendLoop]
    by_cases hemp : (dispatchLoop connectNow now maxConc sys).req.node_list = []
    · rw [if_pos hemp]
    · rw [if_neg hemp]
      by_cases hdone : (applyEvent decode now e
          (dispatchLoop connectNow now maxConc sys)).req.done = 0
      · rw [if_pos hdone]
        exact sendLoop_write_keeps_success decode verify connectNow now maxConc rest _ hnt
      · rw [if_neg hdone, if_pos trivial]
        exact sendLoop_write_keeps_success decode verify connectNow now maxConc rest _ hnt

/-- C2 (amended): on a write, processing a request_done frame matching
the request digest from an attached I/O-enabled node records success,
and send_request then returns CHUNK_SIZE provided the deadline does not
fire during the remainder of the run. (As stated the claim is false: a
later deadline overwrites the recorded success, see the
counterexample.) -/
theorem c2_amended_write_success (decode : Str → List Nat)
    (verify : List Nat → Str → Bool) (connectNow : Addr → ConnectOutcome)
    (now maxConc : Nat) (err : Int) (sys : Sys) (nid : Nat) (n : Node)
    (rest : List Step)
    (hfind : findById nid (dispatchLoop connectNow now maxConc sys).req.node_list
      = some n)
    (hio : n.io_enabled = true)
    (hnt : noTimeout rest = true) :
    (sendLoop decode verify connectNow now maxConc true
        (Step.event (LoopEvent.frames nid
          [rdLine (dispatchLoop connectNow now maxConc sys).req.digest]) :: rest)
        err sys).1 = CHUNK_SIZE := by
  have hne : (dispatchLoop connectNow now maxConc sys).req.node_list ≠ [] :=
    List.ne_nil_of_mem (mem_of_findById hfind)
  have k1 : STORE_CHUNK.isPrefixOf
      (rdLine (dispatchLoop connectNow now maxConc sys).req.digest) = false := rfl
  have k2 : REQUEST_DONE.isPrefixOf
      (rdLine (dispatchLoop connectNow now maxConc sys).req.digest) = true := rfl
  have k3 : (rdLine (dispatchLoop connectNow now maxConc sys).req.digest).drop
      (REQUEST_DONE.length + 1)
      = (dispatchLoop connectNow now maxConc sys).req.digest := rfl
  have hpm : proc_msg decode now
      (rdLine (dispatchLoop connectNow now maxConc sys).req.digest) nid
      (dispatchLoop connectNow now maxConc sys)
      = (true, cacheNodeSys now nid
          { dispatchLoop connectNow now maxConc sys with
            req := { (dispatchLoop connectNow now maxConc sys).req with
              done := (dispatchLoop connectNow now maxConc sys).req.done + 1,
              addr_concurrency :=
                (dispatchLoop connectNow now maxConc sys).req.addr_concurrency - 1 } }) := by
    simp only [proc_msg, k1, k2, k3, Bool.false_eq_true, if_false, if_true]
    rw [if_pos (beq_self_eq_true _)]
  have hev : applyEvent decode now
      (LoopEvent.frames nid
        [rdLine (dispatchLoop connectNow now maxConc sys).req.digest])
      (dispatchLoop connectNow now maxConc sys)
      = cacheNodeSys now nid
          { dispatchLoop connectNow now maxConc sys with
            req := { (dispatchLoop connectNow now maxConc sys).req with
              done := (dispatchLoop connectNow now maxConc sys).req.done + 1,
              addr_concurrency :=
                (dispatchLoop connectNow now maxConc sys).req.addr_concurrency - 1 } } := by
    simp only [applyEvent]
    rw [hfind]
    dsimp only
    rw [if_pos hio]
    unfold readcb
    simp only [List.foldl_cons, List.foldl_nil]
    rw [show (if (false, dispatchLoop connectNow now maxConc sys).1 = true
        then (false, dispatchLoop connectNow now maxConc sys)
        else proc_msg decode now
          (rdLine (dispatchLoop connectNow now maxConc sys).req.digest) nid
          (dispatchLoop connectNow now maxConc sys))
        = proc_msg decode now
          (rdLine (dispatchLoop connectNow now maxConc sys).req.digest) nid
          (dispatchLoop connectNow now maxConc sys) from by simp]
    rw [hpm]
  simp only [sendLoop]
  rw [if_neg hne, hev]
  have hd : (cacheNodeSys now nid
      { dispatchLoop connectNow now maxConc sys with
        req := { (dispatchLoop connectNow now maxConc sys).req with
          done := (dispatchLoop connectNow now maxConc sys).req.done + 1,
          addr_concurrency :=
            (dispatchLoop connectNow now maxConc sys).req.addr_concurrency - 1 } }).req.done
      = (dispatchLoop connectNow now maxConc sys).req.done + 1 :=
    (cacheNodeSys_req now nid _).2.2.2.1
  rw [if_neg (by rw [hd]; exact Nat.succ_ne_zero _), if_pos trivial]
  exact sendLoop_write_keeps_success decode verify connectNow now maxConc rest _ hnt

/-- Counterexample for C2 as stated: a write whose peer echoes the
matching request_done, after which the deadline fires in the next pass;
despite the processed request_done (the done counter of the final state
is 1) send_request returns -ETIMEDOUT, not CHUNK_SIZE. -/
theorem c2_counterexample_timeout_after_done :
    (zdb_write_chunk wDecode wVerify wConnect 1000 4 50 wStart wDigest [] emptyCache
        [Step.event (LoopEvent.frames 50 [rdLine wDigest]), Step.timeout]).1
        = -Etimedout ∧
      (zdb_write_chunk wDecode wVerify wConnect 1000 4 50 wStart wDigest [] emptyCache
        [Step.event (LoopEvent.frames 50 [rdLine wDigest]), Step.timeout]).2.req.done
        = 1 ∧
      (zdb_write_chunk wDecode wVerify wConnect 1000 4 50 wStart wDigest [] emptyCache
        [Step.event (LoopEvent.frames 50 [rdLine wDigest]), Step.timeout]).1
        ≠ CHUNK_SIZE := by decide

/-- Witness for the amended C2 at concrete inputs. -/
theorem c2_witness :
    (sendLoop wDecode wVerify wConnect 1000 4 true
        (Step.event (LoopEvent.frames 50
          [rdLine (dispatchLoop wConnect 1000 4 wSys0).req.digest]) :: [])
        (-Eio) wSys0).1 = CHUNK_SIZE :=
  c2_amended_write_success wDecode wVerify wConnect 1000 4 (-Eio) wSys0 50 wNode50 []
    (by decide) (by decide) (by decide)

/-! Claim C3: what IO_ERROR says about the dispatch state. -/

theorem dispatchGo_cursor (connectNow : Addr → ConnectOutcome) (now maxConc : Nat)
    (fuel : Nat) :
    ∀ sys : Sys, sys.req.addr_index ≤ sys.req.addr_list.length →
      (dispatchGo connectNow now maxConc fuel sys).req.addr_index
        ≤ (dispatchGo connectNow now maxConc fuel sys).req.addr_list.length := by
  induction fuel with
  | zero => intro sys h3; exact h3
  | succ fuel ih =>
    intro sys h3
    by_cases hidx : sys.req.addr_index ≠ sys.req.addr_list.length
    · by_cases hconc : sys.req.addr_concurrency < maxConc
      · have hlt : sys.req.addr_index < sys.req.addr_list.length :=
          lt_of_le_of_ne h3 hidx
        obtain ⟨e1, e2, e3, e4, e5, e6, e7, e8⟩ := send_request_to_effects connectNow now
          (sys.req.addr_list.getD sys.req.addr_index { s_addr := 0, port := 0 }) sys
        have e1len := congrArg List.length e1
        simp only [dispatchGo]
        rw [if_pos hidx, if_pos hconc]
        exact ih _ (by dsimp only; omega)
      · simp only [dispatchGo]
        rw [if_pos hidx, if_neg hconc]
        exact h3
    · simp only [dispatchGo]
      rw [if_neg hidx]
      exact h3

theorem readcb_fold_cursor (decode : Str → List Nat) (now nid : Nat) :
    ∀ (lines : List Str) (acc : Bool × Sys),
      (lines.foldl
        (fun a line => if a.1 then a else proc_msg decode now line nid a.2)
        acc).2.req.addr_index = acc.2.req.addr_index ∧
      acc.2.req.addr_list.length
        ≤ (lines.foldl
            (fun a line => if a.1 then a else proc_msg decode now line nid a.2)
            acc).2.req.addr_list.length
  | [], acc => ⟨rfl, le_refl _⟩
  | line :: rest, acc => by
    by_cases hfl : acc.1 = true
    · have hstep : (if acc.1 then acc else proc_msg decode now line nid acc.2) = acc := by
        rw [if_pos hfl]
      simp only [List.foldl_cons, hstep]
      exact readcb_fold_cursor decode now nid rest acc
    · have hstep : (if acc.1 then acc else proc_msg decode now line nid acc.2)
          = proc_msg decode now line nid acc.2 := by
        rw [if_neg hfl]
      simp only [List.foldl_cons, hstep]
      obtain ⟨_, hidx, hlist, _, _⟩ := proc_msg_inv decode now line nid acc.2
      have ih := readcb_fold_cursor decode now nid rest (proc_msg decode now line nid acc.2)
      exact ⟨ih.1.trans hidx, le_trans hlist ih.2⟩

theorem applyEvent_cursor (decode : Str → List Nat) (now : Nat) (e : LoopEvent)
    (sys : Sys) :
    (applyEvent decode now e sys).req.addr_index = sys.req.addr_index ∧
    sys.req.addr_list.length ≤ (applyEvent decode now e sys).req.addr_list.length := by
  cases e with
  | frames nid lines =>
    simp only [applyEvent]
    cases hf : findById nid sys.req.node_list with
    | none => exact ⟨rfl, le_refl _⟩
    | some n =>
      dsimp only
      by_cases hio : n.io_enabled = true
      · rw [if_pos hio]
        exact readcb_fold_cursor decode now nid lines (false, sys)
      · rw [if_neg hio]
        exact ⟨rfl, le_refl _⟩
  | ioError nid =>
    obtain ⟨f1, f2, f3, f4, f5, f6, f7, f8⟩ := freeNodeSys_inv nid sys
    exact ⟨f6, le_of_eq (congrArg List.length f5.symm)⟩
  | connectReady nid outcome =>
    simp only [applyEvent]
    cases hf : findById nid sys.req.node_list with
    | none => exact ⟨rfl, le_refl _⟩
    | some n =>
      dsimp only
      by_cases hpend : n.connect_pending = true
      · rw [if_pos hpend]
        cases outcome with
        | connected => exact ⟨rfl, le_refl _⟩
        | inProgress => exact ⟨rfl, le_refl _⟩
        | failed =>
          obtain ⟨c1, c2, c3, c4, c5, c6, c7, c8⟩ := cacheNodeSys_req now nid sys
          exact ⟨c6, le_of_eq (congrArg List.length c5.symm)⟩
      · rw [if_neg hpend]
        exact ⟨rfl, le_refl _⟩

theorem sendLoop_eio_dispatch_stopped (decode : Str → List Nat)
    (verify : List Nat → Str → Bool) (connectNow : Addr → ConnectOutcome)
    (now maxConc : Nat) (isWrite : Bool) :
    ∀ (trace : List Step) (err : Int) (sys : Sys),
      sys.req.addr_index ≤ sys.req.addr_list.length →
      (sendLoop decode verify connectNow now maxConc isWrite trace err sys).1 = -Eio →
      ((sendLoop decode verify connectNow now maxConc isWrite trace err sys).2.req.addr_index
          = (sendLoop decode verify connectNow now maxConc isWrite trace err
              sys).2.req.addr_list.length ∨
        maxConc ≤ (sendLoop decode verify connectNow now maxConc isWrite trace err
            sys).2.req.addr_concurrency)
  | [], err, sys, h3, _ => dispatchLoop_stop connectNow now maxConc sys h3
  | Step.timeout :: rest, err, sys, h3, h => by
    simp only [sendLoop] at h
    exact absurd h (by decide)
  | Step.event e :: rest, err, sys, h3, h => by
    simp only [sendLoop] at h ⊢
    have hcur : (dispatchLoop connectNow now maxConc sys).req.addr_index
        ≤ (dispatchLoop connectNow now maxConc sys).req.addr_list.length :=
      dispatchGo_cursor connectNow now maxConc _ sys h3
    by_cases hemp : (dispatchLoop connectNow now maxConc sys).req.node_list = []
    · rw [if_pos hemp] at h ⊢
      exact dispatchLoop_stop connectNow now maxConc sys h3
    · rw [if_neg hemp] at h ⊢
      obtain ⟨ac1, ac2⟩ := applyEvent_cursor decode now e
        (dispatchLoop connectNow now maxConc sys)
      have h3' : (applyEvent decode now e
          (dispatchLoop connectNow now maxConc sys)).req.addr_index
            ≤ (applyEvent decode now e
                (dispatchLoop connectNow now maxConc sys)).req.addr_list.length := by
        rw [ac1]
        exact le_trans hcur ac2
      by_cases hdone : (applyEvent decode now e
          (dispatchLoop connectNow now maxConc sys)).req.done = 0
      · rw [if_pos hdone] at h ⊢
        exact sendLoop_eio_dispatch_stopped decode verify connectNow now maxConc isWrite
          rest err _ h3' h
      · rw [if_neg hdone] at h ⊢
        by_cases hw : isWrite = true
        · rw [if_pos hw] at h ⊢
          exact sendLoop_eio_dispatch_stopped decode verify connectNow now maxConc isWrite
            rest CHUNK_SIZE _ h3' h
        · rw [if_neg hw] at h ⊢
          by_cases hv : (!(applyEvent decode now e
                (dispatchLoop connectNow now maxConc sys)).req.chunk
              && verify (applyEvent decode now e
                  (dispatchLoop connectNow now maxConc sys)).req.buffer
                (applyEvent decode now e
                  (dispatchLoop connectNow now maxConc sys)).req.digest) = true
          · rw [if_pos hv] at h
            have hh : CHUNK_SIZE = (-Eio : Int) := h
            exact absurd hh (by decide)
          · rw [if_neg hv] at h ⊢
            exact sendLoop_eio_dispatch_stopped decode verify connectNow now maxConc isWrite
              rest err _ (by exact h3') h

/-- C3 (amended): when send_request returns IO_ERROR, the dispatch pass
of the final iteration had stopped, i.e. either the address cursor had
reached the end of the candidate list, or the in-flight counter had
reached max_concurrency. The second disjunct can hold with untried
candidates remaining, because dispatches to dead or unreachable
addresses consume concurrency slots without attaching nodes (see the
counterexample), so IO_ERROR with untried candidates is possible. -/
theorem c3_amended_eio_dispatch_stopped (decode : Str → List Nat)
    (verify : List Nat → Str → Bool) (connectNow : Addr → ConnectOutcome)
    (now maxConc id0 : Nat) (startNode : Addr) (digest : Str) (isWrite : Bool)
    (buf0 : List Nat) (cache0 : CacheState) (trace : List Step)
    (h : (send_request decode verify connectNow now maxConc id0 startNode digest
        isWrite buf0 cache0 trace).1 = -Eio) :
    (send_request decode verify connectNow now maxConc id0 startNode digest
        isWrite buf0 cache0 trace).2.req.addr_index
      = (send_request decode verify connectNow now maxConc id0 startNode digest
          isWrite buf0 cache0 trace).2.req.addr_list.length ∨
    maxConc ≤ (send_request decode verify connectNow now maxConc id0 startNode digest
        isWrite buf0 cache0 trace).2.req.addr_concurrency := by
  have hsplit : send_request decode verify connectNow now maxConc id0 startNode digest
      isWrite buf0 cache0 trace
      = ((sendLoop decode verify connectNow now maxConc isWrite trace (-Eio)
          { cache := cache0,
            req := __store_node (initRequest digest isWrite buf0) startNode,
            nextId := id0, socketsCreated := 0 }).1,
        cleanup now (sendLoop decode verify connectNow now maxConc isWrite trace (-Eio)
          { cache := cache0,
            req := __store_node (initRequest digest isWrite buf0) startNode,
            nextId := id0, socketsCreated := 0 }).2) := rfl
  rw [hsplit] at h ⊢
  simp only at h ⊢
  have hmain := sendLoop_eio_dispatch_stopped decode verify connectNow now maxConc isWrite
    trace (-Eio)
    { cache := cache0,
      req := __store_node (initRequest digest isWrite buf0) startNode,
      nextId := id0, socketsCreated := 0 }
    (by
      show (__store_node (initRequest digest isWrite buf0) startNode).addr_index ≤ _
      simp [__store_node, initRequest]) h
  obtain ⟨cl1, cl2, cl3, cl4, cl5, cl6, cl7⟩ := cleanupNodes_req_fields now
    (sendLoop decode verify connectNow now maxConc isWrite trace (-Eio)
      { cache := cache0,
        req := __store_node (initRequest digest isWrite buf0) startNode,
        nextId := id0, socketsCreated := 0 }).2.req.node_list.length
    (sendLoop decode verify connectNow now maxConc isWrite trace (-Eio)
      { cache := cache0,
        req := __store_node (initRequest digest isWrite buf0) startNode,
        nextId := id0, socketsCreated := 0 }).2
  unfold cleanup
  rw [cl5, cl6, cl7]
  exact hmain

/-- Counterexample for C3 as stated: with max_concurrency 1, a start
peer that refers the dead-listed address B and another address C, then
reports request_done: the dispatch to B burns the only slot, the
in-flight set empties, and send_request returns -EIO although candidate
C was never tried (cursor 2 of 3). -/
theorem c3_counterexample_untried_candidates :
    (zdb_read_chunk wDecode wVerify wConnect 1000 1 50 wStart wDigest [] wCacheDeadB
        [Step.event (LoopEvent.frames 50 [snLine snB, snLine snC, rdLine wDigest])]).1
        = -Eio ∧
      (zdb_read_chunk wDecode wVerify wConnect 1000 1 50 wStart wDigest [] wCacheDeadB
        [Step.event (LoopEvent.frames 50
          [snLine snB, snLine snC, rdLine wDigest])]).2.req.addr_index
        < (zdb_read_chunk wDecode wVerify wConnect 1000 1 50 wStart wDigest [] wCacheDeadB
        [Step.event (LoopEvent.frames 50
          [snLine snB, snLine snC, rdLine wDigest])]).2.req.addr_list.length := by
  decide

/-- Witness for the amended C3 at the same concrete input. -/
theorem c3_witness :
    (send_request wDecode wVerify wConnect 1000 1 50 wStart wDigest false [] wCacheDeadB
        [Step.event (LoopEvent.frames 50 [snLine snB, snLine snC, rdLine wDigest])]).2.req.addr_index
      = (send_request wDecode wVerify wConnect 1000 1 50 wStart wDigest false [] wCacheDeadB
          [Step.event (LoopEvent.frames 50 [snLine snB, snLine snC, rdLine wDigest])]).2.req.addr_list.length ∨
    1 ≤ (send_request wDecode wVerify wConnect 1000 1 50 wStart wDigest false [] wCacheDeadB
        [Step.event (LoopEvent.frames 50 [snLine snB, snLine snC, rdLine wDigest])]).2.req.addr_concurrency :=
  c3_amended_eio_dispatch_stopped wDecode wVerify wConnect 1000 1 50 wStart wDigest
    false [] wCacheDeadB
    [Step.event (LoopEvent.frames 50 [snLine snB, snLine snC, rdLine wDigest])]
    (by decide)

/-! Claim C7: a dead-listed start node makes the request fail cleanly. -/

theorem scanDead_found (now : Nat) (sa : Addr) :
    ∀ l : List Node, (∃ d ∈ l, node_is_addr d sa = true ∧ now ≤ d.stamp) →
      (scanDead now sa l).1 = true
  | [], h => by simp at h
  | n :: rest, h => by
    by_cases h1 : n.stamp < now
    · obtain ⟨d, hd, hmatch, hstamp⟩ := h
      have hdr : d ∈ rest := by
        cases List.mem_cons.mp hd with
        | inl heq =>
          subst heq
          exact absurd h1 (not_lt.mpr hstamp)
        | inr hm => exact hm
      simp only [scanDead]
      rw [if_pos h1]
      exact scanDead_found now sa rest ⟨d, hdr, hmatch, hstamp⟩
    · by_cases h2 : node_is_addr n sa = true
      · simp [scanDead, h1, h2]
      · obtain ⟨d, hd, hmatch, hstamp⟩ := h
        have hdr : d ∈ rest := by
          cases List.mem_cons.mp hd with
          | inl heq =>
            subst heq
            exact absurd hmatch h2
          | inr hm => exact hm
        have ih := scanDead_found now sa rest ⟨d, hdr, hmatch, hstamp⟩
        simp only [scanDead]
        rw [if_neg h1, if_neg (by simpa using h2)]
        cases hsd : scanDead now sa rest with
        | mk found rest' =>
          rw [hsd] at ih
          simpa using ih

theorem find_node_dead (now : Nat) (sa : Addr) (cs : CacheState)
    (hnohit : ∀ m ∈ cs.node_cache, node_is_addr m sa = false)
    (hdead : ∃ d ∈ cs.dead_nodes, node_is_addr d sa = true ∧ now ≤ d.stamp) :
    find_node now sa cs
      = (.dead, { cs with dead_nodes := (scanDead now sa cs.dead_nodes).2 }) := by
  unfold find_node
  rw [extractFirst_none_of _ _ hnohit]
  have hf := scanDead_found now sa cs.dead_nodes hdead
  cases hsd : scanDead now sa cs.dead_nodes with
  | mk found rest =>
    rw [hsd] at hf
    simp at hf
    subst hf
    simp [hsd]

/-- C7: when the start node address has a non-expired dead-set entry and
no idle cache entry, dispatch to it fails without creating any socket,
and send_request returns -EIO (before the deadline fires) with no node
ever attached and no node ever allocated. -/
theorem c7_dead_start_gives_eio (decode : Str → List Nat)
    (verify : List Nat → Str → Bool) (connectNow : Addr → ConnectOutcome)
    (now maxConc id0 : Nat) (startNode : Addr) (digest : Str) (isWrite : Bool)
    (buf0 : List Nat) (cache0 : CacheState) (trace : List Step)
    (hmc : 0 < maxConc)
    (hnohit : ∀ m ∈ cache0.node_cache, node_is_addr m startNode = false)
    (hdead : ∃ d ∈ cache0.dead_nodes, node_is_addr d startNode = true ∧ now ≤ d.stamp)
    (hnt : trace.head? ≠ some Step.timeout) :
    (send_request decode verify connectNow now maxConc id0 startNode digest isWrite
        buf0 cache0 trace).1 = -Eio ∧
      (send_request decode verify connectNow now maxConc id0 startNode digest isWrite
        buf0 cache0 trace).2.socketsCreated = 0 ∧
      (send_request decode verify connectNow now maxConc id0 startNode digest isWrite
        buf0 cache0 trace).2.req.node_list = [] ∧
      (send_request decode verify connectNow now maxConc id0 startNode digest isWrite
        buf0 cache0 trace).2.nextId = id0 := by
  have hfn := find_node_dead now startNode cache0 hnohit hdead
  have hseed : __store_node (initRequest digest isWrite buf0) startNode
      = seedReq digest isWrite buf0 startNode := by
    simp [__store_node, initRequest, seedReq]
  have hsrt : send_request_to connectNow now startNode
      { cache := cache0, req := seedReq digest isWrite buf0 startNode,
        nextId := id0, socketsCreated := 0 }
      = (-Einval,
        { cache := { cache0 with
            dead_nodes := (scanDead now startNode cache0.dead_nodes).2 },
          req := seedReq digest isWrite buf0 startNode,
          nextId := id0, socketsCreated := 0 }) := by
    unfold send_request_to
    dsimp only
    rw [hfn]
  have hdisp : dispatchLoop connectNow now maxConc
      { cache := cache0, req := seedReq digest isWrite buf0 startNode,
        nextId := id0, socketsCreated := 0 }
      = deadDispatchedSys now digest isWrite buf0 startNode cache0 id0 := by
    show dispatchGo connectNow now maxConc 1 _ = _
    simp only [dispatchGo]
    rw [if_pos (show (seedReq digest isWrite buf0 startNode).addr_index
        ≠ (seedReq digest isWrite buf0 startNode).addr_list.length from Nat.zero_ne_one)]
    rw [if_pos (show (seedReq digest isWrite buf0 startNode).addr_concurrency < maxConc
        from hmc)]
    rw [show ((seedReq digest isWrite buf0 startNode).addr_list.getD
        (seedReq digest isWrite buf0 startNode).addr_index
        { s_addr := 0, port := 0 }) = startNode from rfl]
    rw [hsrt]
    simp only [dispatchGo]
    rfl
  have hsplit : send_request decode verify connectNow now maxConc id0 startNode digest
      isWrite buf0 cache0 trace
      = ((sendLoop decode verify connectNow now maxConc isWrite trace (-Eio)
          { cache := cache0,
            req := __store_node (initRequest digest isWrite buf0) startNode,
            nextId := id0, socketsCreated := 0 }).1,
        cleanup now (sendLoop decode verify connectNow now maxConc isWrite trace (-Eio)
          { cache := cache0,
            req := __store_node (initRequest digest isWrite buf0) startNode,
            nextId := id0, socketsCreated := 0 }).2) := rfl
  rw [hsplit, hseed]
  cases trace with
  | nil =>
    simp only [sendLoop]
    rw [hdisp]
    refine ⟨?_, ?_, ?_, ?_⟩ <;> trivial
  | cons st rest =>
    cases st with
    | timeout => exact absurd rfl hnt
    | event e =>
      simp only [sendLoop]
      rw [hdisp]
      rw [if_pos (show (deadDispatchedSys now digest isWrite buf0 startNode
          cache0 id0).req.node_list = ([] : List Node) from rfl)]
      refine ⟨?_, ?_, ?_, ?_⟩ <;> trivial

/-- Witness for C7 at concrete inputs. -/
theorem c7_witness :
    (send_request wDecode wVerify wConnect 1000 4 50 wStart wDigest false []
        wCacheDeadStart [Step.event (LoopEvent.frames 50 [])]).1 = -Eio ∧
      (send_request wDecode wVerify wConnect 1000 4 50 wStart wDigest false []
        wCacheDeadStart [Step.event (LoopEvent.frames 50 [])]).2.socketsCreated = 0 ∧
      (send_request wDecode wVerify wConnect 1000 4 50 wStart wDigest false []
        wCacheDeadStart [Step.event (LoopEvent.frames 50 [])]).2.req.node_list = [] ∧
      (send_request wDecode wVerify wConnect 1000 4 50 wStart wDigest false []
        wCacheDeadStart [Step.event (LoopEvent.frames 50 [])]).2.nextId = 50 :=
  c7_dead_start_gives_eio wDecode wVerify wConnect 1000 4 50 wStart wDigest false []
    wCacheDeadStart [Step.event (LoopEvent.frames 50 [])]
    (by decide) (by decide) (by decide) (by decide)

end ZunkDB
